import Mathlib

/-!
Verification development for the Alokickflow patent-text pipeline
(`src/patent_generator_colab.py`).

The Python source works on strings through `re.sub` / `re.finditer` calls with
fixed patterns.  We embed the text-processing core shallowly: a string is a
`List Char`, each regular-expression substitution becomes an executable
matcher (one per pattern, hand-translated, with the pattern quoted in the doc
comment) driven by a generic leftmost, non-overlapping substitution driver
that mirrors `re.sub` semantics (scan left to right, never rescan the
replacement, function replacements see the whole current text and the match
position exactly as Python closures over `text` do).

Sections:
1. character classes and list utilities
2. the figure catalog (`FIGURES`) and the context resolver
   (`get_figure_number_from_context`)
3. the substitution engine and the matchers of `fix_all_figure_references`
4. `clean_text`
5. `parse_sections`
6. `extract_claims`
7. observers used by the claim statements
8. theorems settling claims C1 .. C10
-/

namespace Alokickflow

/-- Python `\s` character class (the whitespace set used by `re` on `str`
patterns): ASCII whitespace, the C1 separators, and Unicode space
characters. -/
def isPySpace (c : Char) : Bool :=
  let n := c.toNat
  n = 0x20 || (0x09 ≤ n && n ≤ 0x0d) || (0x1c ≤ n && n ≤ 0x1f) ||
  n = 0x85 || n = 0xa0 || n = 0x1680 || (0x2000 ≤ n && n ≤ 0x200a) ||
  n = 0x2028 || n = 0x2029 || n = 0x202f || n = 0x205f || n = 0x3000

/-- Python `\d` on ASCII input: the decimal digits. -/
def isPyDigit (c : Char) : Bool :=
  '0' ≤ c && c ≤ '9'

/-- ASCII letter (what `[A-Z]` and `[a-z]` match under `re.IGNORECASE`). -/
def isAsciiLetter (c : Char) : Bool :=
  ('A' ≤ c && c ≤ 'Z') || ('a' ≤ c && c ≤ 'z')

/-- Strict `[A-Z]` (used by the one case-sensitive character class of the
source, in `extract_claims`). -/
def isUpperAZ (c : Char) : Bool :=
  'A' ≤ c && c ≤ 'Z'

/-- Python `\w` on ASCII input: letters, digits, underscore. -/
def isPyWord (c : Char) : Bool :=
  isAsciiLetter c || isPyDigit c || c = '_'

/-- Case-insensitive character comparison (`re.IGNORECASE`). -/
def ciEq (a b : Char) : Bool :=
  a.toLower = b.toLower

/-- `needle` is a prefix of `hay` (exact characters). -/
def isPrefixCh : List Char → List Char → Bool
  | [], _ => true
  | _ :: _, [] => false
  | a :: as, b :: bs => a = b && isPrefixCh as bs

/-- Python `needle in hay` substring test (exact characters). -/
def containsSub (needle : List Char) : List Char → Bool
  | [] => isPrefixCh needle []
  | b :: bs => isPrefixCh needle (b :: bs) || containsSub needle bs

/-- Python `int(...)` on a string of decimal digits. -/
def digitsToNat (ds : List Char) : Nat :=
  ds.foldl (fun acc c => acc * 10 + (c.toNat - '0'.toNat)) 0

/-- Python `str.lower` (ASCII case folding suffices for the source data). -/
def lowerCh (l : List Char) : List Char :=
  l.map Char.toLower

/-- Python `str.strip()`: drop leading and trailing whitespace. -/
def stripCh (l : List Char) : List Char :=
  ((l.dropWhile isPySpace).reverse.dropWhile isPySpace).reverse

/-- Python `str.rstrip()`. -/
def rstripCh (l : List Char) : List Char :=
  (l.reverse.dropWhile isPySpace).reverse

/-- Python `str.lstrip()`. -/
def lstripCh (l : List Char) : List Char :=
  l.dropWhile isPySpace

/-- Python slice `text[a:b]` on character lists. -/
def sliceCh (l : List Char) (a b : Nat) : List Char :=
  (l.drop a).take (b - a)

/-! ## Figure catalog (CELL 4 of the source, list `FIGURES`) -/

structure FigureDef where
  num : Nat
  label : String
  title : String
  desc : String
  keywords : List String
deriving Repr, DecidableEq

def FIGURES : List FigureDef := [
  { num := 1, label := "FIG. 1", title := "System Architecture Overview",
    desc := "Complete Semantic Provenance Intelligence (SPI) system showing multi-modal analysis pipelines, semantic fingerprint generation engine, Creative QC module, and rights management integration.",
    keywords := ["system architecture", "architecture overview", "spi system", "complete system", "overall system", "main system", "overall architecture", "system overview", "high-level", "system diagram"] },
  { num := 2, label := "FIG. 2", title := "Processing Pipeline",
    desc := "End-to-end media processing workflow from content ingestion through transcription, semantic analysis, fingerprint generation, and result delivery.",
    keywords := ["processing pipeline", "pipeline", "workflow", "end-to-end", "process flow", "data flow", "ingestion", "transcription", "media processing", "content processing"] },
  { num := 3, label := "FIG. 3", title := "Semantic DNA Fingerprint Structure",
    desc := "768-dimensional combined Semantic DNA Fingerprint showing six 128-dimensional component vectors (Narrative, Visual, Auditory, Temporal, Emotional, Semantic Density).",
    keywords := ["semantic dna", "fingerprint", "768", "component vector", "combined vector", "dna structure", "128-dimensional", "six vectors", "fingerprint structure", "vector structure", "semantic fingerprint"] },
  { num := 4, label := "FIG. 4", title := "Narrative Vector Extraction",
    desc := "Three-act structure detection, character arc mapping, conflict progression analysis, and thematic element identification process.",
    keywords := ["narrative", "three-act", "character arc", "story structure", "plot", "thematic", "narrative vector", "story analysis", "conflict progression", "narrative extraction"] },
  { num := 5, label := "FIG. 5", title := "Visual Grammar Analysis",
    desc := "Visual content assessment including composition scoring, color palette extraction, motion dynamics analysis, and stylistic feature detection.",
    keywords := ["visual grammar", "visual analysis", "composition", "color palette", "visual feature", "image analysis", "visual vector", "motion dynamics", "stylistic", "visual content"] },
  { num := 6, label := "FIG. 6", title := "Auditory Signature Extraction",
    desc := "Audio analysis pipeline showing speech prosody analysis, music feature extraction, and soundscape profiling components.",
    keywords := ["auditory", "audio", "prosody", "soundscape", "speech", "music feature", "audio analysis", "sound", "auditory vector", "audio extraction", "speech analysis"] },
  { num := 7, label := "FIG. 7", title := "Temporal Rhythm Analysis",
    desc := "Scene transition detection, pacing measurement, shot duration analysis, and temporal structure extraction methodology.",
    keywords := ["temporal", "rhythm", "scene transition", "pacing", "shot", "timing", "temporal vector", "rhythm analysis", "shot duration", "temporal structure", "time-based", "temporal rhythm"] },
  { num := 8, label := "FIG. 8", title := "Emotional Trajectory Mapping",
    desc := "Valence-arousal-dominance (VAD) model implementation for tracking emotional progression with peak and transition detection.",
    keywords := ["emotional", "trajectory", "valence", "arousal", "dominance", "vad", "sentiment", "emotional vector", "emotion tracking", "emotional progression", "emotional mapping", "affect", "mood"] },
  { num := 9, label := "FIG. 9", title := "Creative QC Parameter Taxonomy",
    desc := "Complete 33-parameter assessment framework organized across seven categories: Story, Character, Emotion, Platform, Brand, Risk, and Craft.",
    keywords := ["creative qc", "parameter", "33", "taxonomy", "assessment", "quality control", "seven categories", "qc parameter", "quality assessment", "parameter framework", "33 parameters"] },
  { num := 10, label := "FIG. 10", title := "Complete SPI Workflow",
    desc := "Full data flow diagram from media upload through AI provider integration, parallel analysis execution, and result delivery.",
    keywords := ["complete workflow", "full workflow", "spi workflow", "data flow diagram", "full system", "ai provider", "parallel analysis", "result delivery", "complete spi"] },
  { num := 11, label := "FIG. 11", title := "Multi-Modal Fusion Architecture",
    desc := "Attention-based mechanism for combining visual, audio, and textual semantic representations into unified fingerprints.",
    keywords := ["multi-modal", "fusion", "attention", "cross-modal", "multimodal", "combining", "attention-based", "unified fingerprint", "modal fusion", "cross-modal attention"] },
  { num := 12, label := "FIG. 12", title := "Database Schema",
    desc := "PostgreSQL with pgvector extension showing tables for semantic fingerprints, QC results, and content metadata with vector similarity indexes.",
    keywords := ["database", "schema", "postgresql", "pgvector", "storage", "data model", "vector index", "database schema", "data storage", "similarity index"] },
  { num := 13, label := "FIG. 13", title := "API Integration Layer",
    desc := "REST API endpoint specifications, webhook configurations, and external system integration patterns.",
    keywords := ["api", "endpoint", "webhook", "rest", "integration", "interface", "api layer", "rest api", "external integration", "api specification"] },
  { num := 14, label := "FIG. 14", title := "Deployment Architecture",
    desc := "Cloud-native deployment topology with Kubernetes orchestration, auto-scaling, and load balancing configurations.",
    keywords := ["deployment", "cloud", "kubernetes", "scaling", "infrastructure", "hosting", "cloud-native", "auto-scaling", "load balancing", "deployment topology"] },
  { num := 15, label := "FIG. 15", title := "Security Framework",
    desc := "Multi-layer security architecture including rate limiting, adversarial detection, and role-based access control.",
    keywords := ["security", "anti-abuse", "adversarial", "rate limit", "access control", "authentication", "security framework", "rbac", "security layer", "abuse prevention"] },
  { num := 16, label := "FIG. 16", title := "Copyright Automation Engine",
    desc := "Rights ledger integration showing content identification, smart contract licensing, and royalty distribution tracking.",
    keywords := ["copyright", "rights", "ledger", "licensing", "royalty", "drm", "rights ledger", "smart contract", "content identification", "royalty distribution"] },
  { num := 17, label := "FIG. 17", title := "Drift Detection and Calibration",
    desc := "Continuous model monitoring system showing drift quantification, alert thresholds, and automated recalibration triggers.",
    keywords := ["drift", "calibration", "monitoring", "baseline", "recalibration", "model drift", "drift detection", "drift quantification", "alert threshold", "model monitoring", "drift graphics", "semantic drift"] }
]

/-! ## Context resolver (`get_figure_number_from_context`, lines 211-229)

```python
context_lower = context_text.lower()
best_fig = 1; best_score = 0
for fig in FIGURES:
    for keyword in fig['keywords']:
        if keyword in context_lower:
            score = len(keyword) * 2
            if f" {keyword} " in f" {context_lower} ":
                score += 5
            if score > best_score:
                best_score = score; best_fig = fig['num']
return best_fig
```
-/

/-- The loop body of `get_figure_number_from_context` for one `(fig, keyword)`
pair, exactly as in the source: consider the keyword only when it occurs in
the lowered window, weight `2 × len`, add `5` for a space-bounded occurrence
in the space-padded window, and update on strictly greater score only. -/
def considerKeyword (context_lower : List Char) (fignum : Nat)
    (best : Nat × Nat) (keyword : List Char) : Nat × Nat :=
  if containsSub keyword context_lower then
    let score := keyword.length * 2
    let score := if containsSub (' ' :: (keyword ++ [' '])) (' ' :: (context_lower ++ [' ']))
      then score + 5 else score
    if score > best.2 then (fignum, score) else best
  else best

/-- `get_figure_number_from_context(context_text)` of the source. -/
def get_figure_number_from_context (context_text : List Char) : Nat :=
  let context_lower := lowerCh context_text
  let best := FIGURES.foldl (fun best fig =>
    (fig.keywords.map String.data).foldl (considerKeyword context_lower fig.num) best)
    (1, 0)
  best.1

/-! ## Substitution engine

`applySub m full` mirrors `re.sub(pattern, repl, full)` for a pattern whose
matcher is `m`: scan left to right; at each position try the matcher (which
receives the whole current text and the absolute position, mirroring how the
source's replacement closures read the enclosing `text` variable and
`match.start()`/`match.end()`); on a match emit the replacement and resume
after the match, never rescanning the replacement.  All matchers below
consume at least one character; the `k = 0` branch mirrors Python's
empty-match handling and is never reached. -/

/-- A matcher: whole text, absolute position, suffix at that position;
returns `(replacement, consumed)` on a match. -/
abbrev Matcher := List Char → Nat → List Char → Option (List Char × Nat)

def applySubGo (m : Matcher) (full : List Char) :
    Nat → Nat → List Char → List Char
  | 0, _, s => s
  | Nat.succ fuel, pos, s =>
    match s with
    | [] => []
    | c :: rest =>
      match m full pos (c :: rest) with
      | some (rep, k) =>
        if k = 0 then rep ++ c :: applySubGo m full fuel (pos + 1) rest
        else rep ++ applySubGo m full fuel (pos + k) ((c :: rest).drop k)
      | none => c :: applySubGo m full fuel (pos + 1) rest

def applySub (m : Matcher) (full : List Char) : List Char :=
  applySubGo m full (full.length + 1) 0 full

/-! ### Elementary parsers (on the suffix, returning the remaining suffix) -/

/-- Case-insensitive literal (`re.IGNORECASE`). -/
def pCI (w : String) (s : List Char) : Option (List Char) :=
  go w.data s
where
  go : List Char → List Char → Option (List Char)
    | [], s => some s
    | _ :: _, [] => none
    | c :: cs, d :: ds => if ciEq d c then go cs ds else none

/-- Case-sensitive literal. -/
def pCS (w : String) (s : List Char) : Option (List Char) :=
  go w.data s
where
  go : List Char → List Char → Option (List Char)
    | [], s => some s
    | _ :: _, [] => none
    | c :: cs, d :: ds => if d = c then go cs ds else none

/-- `\s*` (greedy; the patterns below never need to backtrack over it). -/
def pWS0 (s : List Char) : List Char :=
  s.dropWhile isPySpace

/-- `\s+` (greedy). -/
def pWS1 : List Char → Option (List Char)
  | [] => none
  | c :: r => if isPySpace c then some (r.dropWhile isPySpace) else none

/-- One literal character. -/
def pChr (c : Char) : List Char → Option (List Char)
  | [] => none
  | d :: r => if d = c then some r else none

/-- `(\d+)` (greedy), capturing the digit run. -/
def pDigits1 (s : List Char) : Option (List Char × List Char) :=
  let ds := s.takeWhile isPyDigit
  if ds.isEmpty then none else some (ds, s.drop ds.length)

/-- `(\d{1,2})` when the pattern continues with something that cannot start
with a digit: the whole digit run must have length 1 or 2 (a third digit
makes every backtracking alternative fail). -/
def pDigits12excl (s : List Char) : Option (List Char × List Char) :=
  let ds := s.takeWhile isPyDigit
  if ds.isEmpty || ds.length > 2 then none else some (ds, s.drop ds.length)

/-- `(\d{1,2})` at the end of a pattern (greedy: up to two digits, further
digits are simply left unconsumed). -/
def pDigits12max (s : List Char) : Option (List Char × List Char) :=
  let ds := (s.takeWhile isPyDigit).take 2
  if ds.isEmpty then none else some (ds, s.drop ds.length)

/-- `[a-z]+` under `re.IGNORECASE` followed by `\s+`-compatible context:
greedy letter run. -/
def pLetters1 (s : List Char) : Option (List Char × List Char) :=
  let ds := s.takeWhile isAsciiLetter
  if ds.isEmpty then none else some (ds, s.drop ds.length)

/-- `\w+` (greedy), capturing the run. -/
def pWord1 (s : List Char) : Option (List Char × List Char) :=
  let ds := s.takeWhile isPyWord
  if ds.isEmpty then none else some (ds, s.drop ds.length)

/-- `suf` is a suffix of `l`. -/
def isSuffixCh (suf l : List Char) : Bool :=
  isPrefixCh suf.reverse l.reverse

/-- Decimal digits of a number (Python f-string interpolation of an int). -/
def natDigits (n : Nat) : List Char :=
  (Nat.repr n).data

/-- Python `str.upper` (ASCII). -/
def upperCh (l : List Char) : List Char :=
  l.map Char.toUpper

/-! ## `fix_all_figure_references` (lines 231-407)

Each `STEP` below carries the regular expression it embeds.  Unless noted,
the flag is `re.IGNORECASE`. -/

/-- STEP 0a: `FIG\.?\s+FIG\.?\s*(\d+)` → `FIG. \1`.  The optional dot is
tried greedily (with the dot first), as the backtracking engine does. -/
def mStep0a : Matcher := fun _ _ s => do
  let s1 ← pCI "FIG" s
  -- `\.?\s+`
  let s2 ← (do let r ← pChr '.' s1; pWS1 r) <|> pWS1 s1
  let s3 ← pCI "FIG" s2
  -- `\.?\s*(\d+)`
  let (ds, rest) ← (do let r ← pChr '.' s3; pDigits1 (pWS0 r)) <|> pDigits1 (pWS0 s3)
  some ("FIG. ".data ++ ds, s.length - rest.length)

/-- STEP 0b: `FIG\s+FIG\s+` → `FIG. `. -/
def mStep0b : Matcher := fun _ _ s => do
  let s1 ← pCI "FIG" s
  let s2 ← pWS1 s1
  let s3 ← pCI "FIG" s2
  let rest ← pWS1 s3
  some ("FIG. ".data, s.length - rest.length)

/-- One iteration of `(?:\s*\.\s*\d+)` in STEP 1. -/
def pDotNum (s : List Char) : Option (List Char) := do
  let r ← pChr '.' (pWS0 s)
  let (_, r2) ← pDigits1 (pWS0 r)
  some r2

/-- `(?:\s*\.\s*\d+)+` (greedy repetition). -/
def pDotNums : Nat → List Char → Option (List Char)
  | 0, _ => none
  | Nat.succ fuel, s => do
    let r ← pDotNum s
    match pDotNums fuel r with
    | some r2 => some r2
    | none => some r

/-- STEP 1: `FIG\.?\s*(\d{1,2})(?:\s*\.\s*\d+)+\.?` → `FIG. \1`. -/
def mStep1 : Matcher := fun _ _ s => do
  let s1 ← pCI "FIG" s
  let (ds, s2) ← (do let r ← pChr '.' s1; pDigits12excl (pWS0 r)) <|> pDigits12excl (pWS0 s1)
  let s3 ← pDotNums s2.length s2
  -- trailing `\.?`
  let rest := match s3 with
    | '.' :: r => r
    | _ => s3
  some ("FIG. ".data ++ ds, s.length - rest.length)

/-- STEP 2: `FIG\.?\s*(\d{1,2})\s*\.\s*\d+(?!\d)` → `FIG. \1` (the greedy
`\d+` makes the lookahead vacuous). -/
def mStep2 : Matcher := fun _ _ s => do
  let s1 ← pCI "FIG" s
  let (ds, s2) ← (do let r ← pChr '.' s1; pDigits12excl (pWS0 r)) <|> pDigits12excl (pWS0 s1)
  let r ← pChr '.' (pWS0 s2)
  let (_, rest) ← pDigits1 (pWS0 r)
  some ("FIG. ".data ++ ds, s.length - rest.length)

/-- `context_replace` (lines 253-267): window of 400 preceding / 100
following characters around the match, resolve a figure, rebuild
`"{prefix_clean} FIG. {fig_num}."`.  (The three `endswith` branches of the
source produce the same string; they are kept for fidelity.) -/
def context_replace (full : List Char) (mstart mend : Nat) (grp : List Char) :
    List Char :=
  let start := mstart - 400
  let stop := min full.length (mend + 100)
  let context := sliceCh full start stop
  let fig_num := get_figure_number_from_context context
  let pclean := rstripCh grp
  if isSuffixCh " in".data pclean then
    pclean ++ " FIG. ".data ++ natDigits fig_num ++ ['.']
  else if isSuffixCh " to".data pclean then
    pclean ++ " FIG. ".data ++ natDigits fig_num ++ ['.']
  else
    pclean ++ " FIG. ".data ++ natDigits fig_num ++ ['.']

/-- A group-1 phrase parser: returns the suffix after the phrase. -/
abbrev Phr := List Char → Option (List Char)

/-- `(?:PRE)?CORE` with the backtracking fallback of an optional prefix. -/
def pOptPre (pre : Phr) (core : Phr) : Phr := fun s =>
  match pre s with
  | some r =>
    match core r with
    | some r2 => some r2
    | none => core s
  | none => core s

/-- `as\s+`. -/
def pAs : Phr := fun s => do let r ← pCI "as" s; pWS1 r

/-- `X\s+in` for a literal first word. -/
def pWordIn (w : String) : Phr := fun s => do
  let r ← pCI w s
  let r2 ← pWS1 r
  pCI "in" r2

def phrShownIn : Phr := pOptPre pAs (pWordIn "shown")
def phrIllustratedIn : Phr := pOptPre pAs (pWordIn "illustrated")
def phrDepictedIn : Phr := pOptPre pAs (pWordIn "depicted")
def phrDisplayedIn : Phr := pOptPre pAs (pWordIn "displayed")
def phrPresentedIn : Phr := pOptPre pAs (pWordIn "presented")

/-- `represented\s+(?:visually\s+)?in`. -/
def phrRepresentedIn : Phr := fun s => do
  let r ← pCI "represented" s
  let r2 ← pWS1 r
  (do let r3 ← pCI "visually" r2
      let r4 ← pWS1 r3
      pCI "in" r4) <|> pCI "in" r2

/-- `(?:These\s+are\s+)?(?:represented|shown)\s+visually\s+in`. -/
def phrTheseRepShownVisuallyIn : Phr :=
  pOptPre
    (fun s => do
      let r ← pCI "These" s
      let r2 ← pWS1 r
      let r3 ← pCI "are" r2
      pWS1 r3)
    (fun s => do
      let r ← pCI "represented" s <|> pCI "shown" s
      let r2 ← pWS1 r
      let r3 ← pCI "visually" r2
      let r4 ← pWS1 r3
      pCI "in" r4)

/-- `(?:A\s+)?visual\s+reference\s+(?:for\s+\w+\s+)?is\s+shown\s+in`. -/
def phrVisualReferenceIn : Phr :=
  pOptPre
    (fun s => do let r ← pCI "A" s; pWS1 r)
    (fun s => do
      let r ← pCI "visual" s
      let r2 ← pWS1 r
      let r3 ← pCI "reference" r2
      let r4 ← pWS1 r3
      let tail := fun (t : List Char) => do
        let u ← pCI "is" t
        let u2 ← pWS1 u
        let u3 ← pCI "shown" u2
        let u4 ← pWS1 u3
        pCI "in" u4
      (do let r5 ← pCI "for" r4
          let r6 ← pWS1 r5
          let (_, r7) ← pWord1 r6
          let r8 ← pWS1 r7
          tail r8) <|> tail r4)

/-- `represented\s+visually\s+in` (the non-optional form used by STEP 11 and
STEP 12). -/
def phrRepVisuallyIn : Phr := fun s => do
  let r ← pCI "represented" s
  let r2 ← pWS1 r
  let r3 ← pCI "visually" r2
  let r4 ← pWS1 r3
  pCI "in" r4

/-- `(?:See|Refer\s+to)`. -/
def phrSeeRefer : Phr := fun s =>
  pCI "See" s <|> (do let r ← pCI "Refer" s; let r2 ← pWS1 r; pCI "to" r2)

/-- STEP 3, patterns 1-9 of `empty_patterns`: `(PHRASE)\s*\.` with the
`context_replace` function replacement (group 1 = the phrase). -/
def mkEmptyPat (phr : Phr) : Matcher := fun full pos s => do
  let rest1 ← phr s
  let rest2 ← pChr '.' (pWS0 rest1)
  let g1 := s.take (s.length - rest1.length)
  let consumed := s.length - rest2.length
  some (context_replace full pos (pos + consumed) g1, consumed)

/-- STEP 3, pattern 10: `(in\s+FIG\.?)\s*\.` — the optional dot of the group
interacts with the final `\.` exactly as the backtracking engine resolves
it: with the dot first, then without. -/
def mStep3j : Matcher := fun full pos s => do
  let r1 ← pCI "in" s
  let r2 ← pWS1 r1
  let r3 ← pCI "FIG" r2
  let fin := fun (g1end : List Char) => do
    let r4 ← pChr '.' (pWS0 g1end)
    let g1 := s.take (s.length - g1end.length)
    let consumed := s.length - r4.length
    some (context_replace full pos (pos + consumed) g1, consumed)
  (do let r3' ← pChr '.' r3; fin r3') <|> fin r3

/-- STEP 4: `FIG\.?\s*(\d{1,2})\s+and\s*\.` with `fix_and_empty` (300
preceding characters of context; a colliding inferred id is bumped,
saturating at 17). -/
def mStep4 : Matcher := fun full pos s => do
  let s1 ← pCI "FIG" s
  let (ds, s2) ← (do let r ← pChr '.' s1; pDigits12excl (pWS0 r)) <|> pDigits12excl (pWS0 s1)
  let s3 ← pWS1 s2
  let s4 ← pCI "and" s3
  let rest ← pChr '.' (pWS0 s4)
  let consumed := s.length - rest.length
  let first_fig := digitsToNat ds
  let context := sliceCh full (pos - 300) (pos + consumed)
  let second0 := get_figure_number_from_context context
  let second_fig := if second0 = first_fig then min (first_fig + 1) 17 else second0
  some (("FIG. ".data ++ natDigits first_fig ++ " and FIG. ".data ++
    natDigits second_fig ++ ['.']), consumed)

/-- STEP 5: `Figure\s+(\d{1,2})` → `FIG. \1`. -/
def mStep5 : Matcher := fun _ _ s => do
  let s1 ← pCI "Figure" s
  let s2 ← pWS1 s1
  let (ds, rest) ← pDigits12max s2
  some ("FIG. ".data ++ ds, s.length - rest.length)

/-- STEP 6a: `FIG\s+(\d)` → `FIG. \1` (case-sensitive). -/
def mStep6a : Matcher := fun _ _ s => do
  let s1 ← pCS "FIG" s
  let s2 ← pWS1 s1
  match s2 with
  | d :: rest =>
    if isPyDigit d then some ("FIG. ".data ++ [d], s.length - rest.length) else none
  | [] => none

/-- STEP 6b: `FIG\.(\d)` → `FIG. \1` (case-sensitive). -/
def mStep6b : Matcher := fun _ _ s => do
  let s1 ← pCS "FIG." s
  match s1 with
  | d :: rest =>
    if isPyDigit d then some ("FIG. ".data ++ [d], s.length - rest.length) else none
  | [] => none

/-- STEP 6c: `FIG\.\s{2,}(\d)` → `FIG. \1` (case-sensitive). -/
def mStep6c : Matcher := fun _ _ s => do
  let s1 ← pCS "FIG." s
  let ws := s1.takeWhile isPySpace
  if ws.length < 2 then none else
  match s1.drop ws.length with
  | d :: rest =>
    if isPyDigit d then some ("FIG. ".data ++ [d], s.length - rest.length) else none
  | [] => none

/-- STEP 7: `FIG\.\s*\.(?!\d)` with `fix_standalone_fig` (300 preceding
characters up to the match start). -/
def mStep7 : Matcher := fun full pos s => do
  let s1 ← pCI "FIG" s
  let s2 ← pChr '.' s1
  let rest ← pChr '.' (pWS0 s2)
  -- `(?!\d)`
  match rest with
  | d :: _ => if isPyDigit d then none else
      some (mkRep full pos, s.length - rest.length)
  | [] => some (mkRep full pos, s.length - rest.length)
where
  mkRep (full : List Char) (pos : Nat) : List Char :=
    let context := sliceCh full (pos - 300) pos
    "FIG. ".data ++ natDigits (get_figure_number_from_context context) ++ ['.']

/-- `validate_fig` (lines 321-327): clamp below 1 to 1, wrap above 17 by
`((num - 1) % 17) + 1`. -/
def validate_fig (num : Nat) : Nat :=
  if num < 1 then 1
  else if num > 17 then ((num - 1) % 17) + 1
  else num

/-- STEP 8: `FIG\.\s*(\d+)` with `validate_fig`. -/
def mStep8 : Matcher := fun _ _ s => do
  let s1 ← pCI "FIG" s
  let s2 ← pChr '.' s1
  let (ds, rest) ← pDigits1 (pWS0 s2)
  some ("FIG. ".data ++ natDigits (validate_fig (digitsToNat ds)), s.length - rest.length)

/-- STEP 9b: `FIG\s+FIG` → `FIG`. -/
def mStep9b : Matcher := fun _ _ s => do
  let s1 ← pCI "FIG" s
  let s2 ← pWS1 s1
  let rest ← pCI "FIG" s2
  some ("FIG".data, s.length - rest.length)

/-- STEP 10: `FIG\s*\.\s*(\d+)` → `FIG. \1` (case-sensitive). -/
def mStep10 : Matcher := fun _ _ s => do
  let s1 ← pCS "FIG" s
  let s2 ← pChr '.' (pWS0 s1)
  let (ds, rest) ← pDigits1 (pWS0 s2)
  some ("FIG. ".data ++ ds, s.length - rest.length)

/-- STEP 11: `(PHRASE)\s+(G2)` with `fix_implicit_reference` (skip when
`'FIG'` occurs in the first 20 characters of the upper-cased group 2;
otherwise insert `FIG. n,` from a 500-preceding/200-following window). -/
def mkImplicitPat (phr : Phr) (g2 : List Char → Option (List Char × List Char)) :
    Matcher := fun full pos s => do
  let r1 ← phr s
  let r2 ← pWS1 r1
  let (following, rest) ← g2 r2
  let consumed := s.length - rest.length
  let phrase := s.take (s.length - r1.length)
  if containsSub "FIG".data ((upperCh following).take 20) then
    some (s.take consumed, consumed)
  else
    let context := sliceCh full (pos - 500) (min full.length (pos + consumed + 200))
    let fig_num := get_figure_number_from_context context
    some (phrase ++ " FIG. ".data ++ natDigits fig_num ++ ", ".data ++
      lstripCh following, consumed)

/-- Group 2 form `the\s+\w+`. -/
def g2The (s : List Char) : Option (List Char × List Char) := do
  let r ← pCI "the" s
  let r2 ← pWS1 r
  let (_, rest) ← pWord1 r2
  some (s.take (s.length - rest.length), rest)

/-- Group 2 form `[a-z]+\s+\w+` (`re.IGNORECASE`). -/
def g2Az (s : List Char) : Option (List Char × List Char) := do
  let (_, r) ← pLetters1 s
  let r2 ← pWS1 r
  let (_, rest) ← pWord1 r2
  some (s.take (s.length - rest.length), rest)

/-- STEP 12: `(PHRASE)\s*([,\.])` with `fix_trailing_implicit` (500
preceding characters of context). -/
def mkTrailingPat (phr : Phr) : Matcher := fun full pos s => do
  let r1 ← phr s
  let r2 := pWS0 r1
  match r2 with
  | p :: rest =>
    if p = ',' || p = '.' then
      let consumed := s.length - rest.length
      let phrase := s.take (s.length - r1.length)
      let context := sliceCh full (pos - 500) (pos + consumed)
      let fig_num := get_figure_number_from_context context
      some (phrase ++ " FIG. ".data ++ natDigits fig_num ++ [p], consumed)
    else none
  | [] => none

/-- STEP 13: `in\s+FIG\.(?!\s*\d)` with `fix_fig_without_number` (400
preceding characters of context). -/
def mStep13 : Matcher := fun full pos s => do
  let r1 ← pCI "in" s
  let r2 ← pWS1 r1
  let r3 ← pCI "FIG" r2
  let rest ← pChr '.' r3
  -- `(?!\s*\d)`
  match pWS0 rest with
  | d :: _ =>
    if isPyDigit d then none else
      mkOut full pos s rest
  | [] => mkOut full pos s rest
where
  mkOut (full : List Char) (pos : Nat) (s rest : List Char) :
      Option (List Char × Nat) :=
    let consumed := s.length - rest.length
    let context := sliceCh full (pos - 400) (pos + consumed)
    let fig_num := get_figure_number_from_context context
    some ("in FIG. ".data ++ natDigits fig_num, consumed)

/-- STEP 14a: `FIG\.\s+(\d+)\s*,\s*,` → `FIG. \1,` (case-sensitive). -/
def mStep14a : Matcher := fun _ _ s => do
  let s1 ← pCS "FIG." s
  let s2 ← pWS1 s1
  let (ds, s3) ← pDigits1 s2
  let s4 ← pChr ',' (pWS0 s3)
  let rest ← pChr ',' (pWS0 s4)
  some ("FIG. ".data ++ ds ++ [','], s.length - rest.length)

/-- STEP 14b: `FIG\.\s+(\d+)\s*\.\s*\.` → `FIG. \1.` (case-sensitive). -/
def mStep14b : Matcher := fun _ _ s => do
  let s1 ← pCS "FIG." s
  let s2 ← pWS1 s1
  let (ds, s3) ← pDigits1 s2
  let s4 ← pChr '.' (pWS0 s3)
  let rest ← pChr '.' (pWS0 s4)
  some ("FIG. ".data ++ ds ++ ['.'], s.length - rest.length)

/-- Scanner state machine for STEP 14c (`\s{2,}` → one space): the state
remembers a pending whitespace run — `none` outside a run,
`some (w, false)` after exactly one whitespace character `w`,
`some (w, true)` after two or more. -/
def collapseSpacesGo : Option (Char × Bool) → List Char → List Char
  | none, [] => []
  | some (w, more), [] => if more then [' '] else [w]
  | none, c :: rest =>
    if isPySpace c then collapseSpacesGo (some (c, false)) rest
    else c :: collapseSpacesGo none rest
  | some (w, more), c :: rest =>
    if isPySpace c then collapseSpacesGo (some (w, true)) rest
    else (if more then [' '] else [w]) ++ c :: collapseSpacesGo none rest

/-- STEP 14c: `\s{2,}` → a single space (a whitespace run of length `≥ 2`
becomes one space, a single whitespace character is kept as itself). -/
def collapseSpaces (l : List Char) : List Char :=
  collapseSpacesGo none l

/-- `fix_all_figure_references(text)` (lines 231-407): the ordered sequence
of substitution passes. -/
def fix_all_figure_references (text : List Char) : List Char :=
  -- STEP 0
  let text := applySub mStep0a text
  let text := applySub mStep0b text
  -- STEP 1, STEP 2
  let text := applySub mStep1 text
  let text := applySub mStep2 text
  -- STEP 3: `empty_patterns`, in list order
  let text := applySub (mkEmptyPat phrShownIn) text
  let text := applySub (mkEmptyPat phrIllustratedIn) text
  let text := applySub (mkEmptyPat phrDepictedIn) text
  let text := applySub (mkEmptyPat phrDisplayedIn) text
  let text := applySub (mkEmptyPat phrPresentedIn) text
  let text := applySub (mkEmptyPat phrRepresentedIn) text
  let text := applySub (mkEmptyPat phrTheseRepShownVisuallyIn) text
  let text := applySub (mkEmptyPat phrVisualReferenceIn) text
  let text := applySub (mkEmptyPat phrSeeRefer) text
  let text := applySub mStep3j text
  -- STEP 4 .. STEP 7
  let text := applySub mStep4 text
  let text := applySub mStep5 text
  let text := applySub mStep6a text
  let text := applySub mStep6b text
  let text := applySub mStep6c text
  let text := applySub mStep7 text
  -- STEP 8
  let text := applySub mStep8 text
  -- STEP 9
  let text := applySub mStep0a text
  let text := applySub mStep9b text
  -- STEP 10
  let text := applySub mStep10 text
  -- STEP 11: `implicit_patterns`, in list order
  let text := applySub (mkImplicitPat phrIllustratedIn g2The) text
  let text := applySub (mkImplicitPat phrShownIn g2The) text
  let text := applySub (mkImplicitPat phrDepictedIn g2The) text
  let text := applySub (mkImplicitPat phrDisplayedIn g2The) text
  let text := applySub (mkImplicitPat phrRepVisuallyIn g2The) text
  let text := applySub (mkImplicitPat phrIllustratedIn g2Az) text
  let text := applySub (mkImplicitPat phrShownIn g2Az) text
  -- STEP 12: `trailing_patterns`, in list order
  let text := applySub (mkTrailingPat phrIllustratedIn) text
  let text := applySub (mkTrailingPat phrShownIn) text
  let text := applySub (mkTrailingPat phrDepictedIn) text
  let text := applySub (mkTrailingPat phrRepVisuallyIn) text
  -- STEP 13
  let text := applySub mStep13 text
  -- STEP 14
  let text := applySub mStep14a text
  let text := applySub mStep14b text
  let text := collapseSpaces text
  text

/-- String-level wrapper of `fix_all_figure_references`. -/
def fixAllFigureReferencesStr (t : String) : String :=
  String.mk (fix_all_figure_references t.data)

/-! ## `clean_text` (lines 413-431)

The `ARTIFACTS` patterns (all under `re.IGNORECASE`, replaced by the empty
string), then `[ \t]+` → `' '`, then `\n{4,}` → `'\n\n\n'`, then
`\((\d+)\)\s*\(\1\)` → `(\1)`, then `str.strip()`. -/

/-- `END\s*OF\s*PART\s*\d+`. -/
def mArtEndOfPart : Matcher := fun _ _ s => do
  let s1 ← pCI "END" s
  let s2 ← pCI "OF" (pWS0 s1)
  let s3 ← pCI "PART" (pWS0 s2)
  let (_, rest) ← pDigits1 (pWS0 s3)
  some ([], s.length - rest.length)

/-- `PART\s*\d+\s*[-–:]`. -/
def mArtPartDash : Matcher := fun _ _ s => do
  let s1 ← pCI "PART" s
  let (_, s2) ← pDigits1 (pWS0 s1)
  match pWS0 s2 with
  | p :: rest =>
    if p = '-' || p = '–' || p = ':' then some ([], s.length - rest.length) else none
  | [] => none

/-- `\(Insert\s+[^)]+\)`.  Since `[^)]` contains every whitespace character,
`\s+[^)]+` matches exactly when the text after `Insert` starts with a
whitespace character and at least two characters precede the next `)`. -/
def mArtInsertParen : Matcher := fun _ _ s => do
  let s1 ← pChr '(' s
  let s2 ← pCI "Insert" s1
  match s2 with
  | c :: _ =>
    if isPySpace c then
      let run := s2.takeWhile (fun d => d ≠ ')')
      if run.length < 2 then none else
      match s2.drop run.length with
      | ')' :: rest => some ([], s.length - rest.length)
      | _ => none
    else none
  | [] => none

/-- `\[Insert\s+[^\]]+\]` (same shape with square brackets). -/
def mArtInsertBracket : Matcher := fun _ _ s => do
  let s1 ← pChr '[' s
  let s2 ← pCI "Insert" s1
  match s2 with
  | c :: _ =>
    if isPySpace c then
      let run := s2.takeWhile (fun d => d ≠ ']')
      if run.length < 2 then none else
      match s2.drop run.length with
      | ']' :: rest => some ([], s.length - rest.length)
      | _ => none
    else none
  | [] => none

/-- `<<[^>]+>>`: a nonempty run of non-`>` characters (necessarily up to the
first `>`), then two `>`. -/
def mArtAngles : Matcher := fun _ _ s => do
  let s1 ← pCS "<<" s
  let run := s1.takeWhile (fun d => d ≠ '>')
  if run.isEmpty then none else
  match s1.drop run.length with
  | '>' :: '>' :: rest => some ([], s.length - rest.length)
  | _ => none

/-- `\[FIGURE[^\]]*\]`. -/
def mArtFigureBracket : Matcher := fun _ _ s => do
  let s1 ← pChr '[' s
  let s2 ← pCI "FIGURE" s1
  let run := s2.takeWhile (fun d => d ≠ ']')
  match s2.drop run.length with
  | ']' :: rest => some ([], s.length - rest.length)
  | _ => none

/-- `IMAGE\s*PLACEHOLDER`. -/
def mArtImagePlaceholder : Matcher := fun _ _ s => do
  let s1 ← pCI "IMAGE" s
  let rest ← pCI "PLACEHOLDER" (pWS0 s1)
  some ([], s.length - rest.length)

/-- `Patent\s+Figures\s*\([^)]+\)`. -/
def mArtPatentFigures : Matcher := fun _ _ s => do
  let s1 ← pCI "Patent" s
  let s2 ← pWS1 s1
  let s3 ← pCI "Figures" s2
  let s4 ← pChr '(' (pWS0 s3)
  let run := s4.takeWhile (fun d => d ≠ ')')
  if run.isEmpty then none else
  match s4.drop run.length with
  | ')' :: rest => some ([], s.length - rest.length)
  | _ => none

/-- Scanner for `[ \t]+` → `' '`: the flag records whether a space/tab run
is pending (every maximal run becomes exactly one space). -/
def collapseSpaceTabGo : Bool → List Char → List Char
  | inRun, [] => if inRun then [' '] else []
  | inRun, c :: rest =>
    if c = ' ' || c = '\t' then collapseSpaceTabGo true rest
    else if inRun then ' ' :: c :: collapseSpaceTabGo false rest
    else c :: collapseSpaceTabGo false rest

/-- `[ \t]+` → `' '`. -/
def collapseSpaceTab (l : List Char) : List Char :=
  collapseSpaceTabGo false l

/-- Emit a collapsed line-break run: `n ≥ 4` breaks become three. -/
def emitNl (n : Nat) : List Char :=
  List.replicate (if n ≥ 4 then 3 else n) '\n'

/-- Scanner for `\n{4,}` → `'\n\n\n'`: the state counts the pending run of
line breaks. -/
def collapseNewlinesGo : Nat → List Char → List Char
  | n, [] => emitNl n
  | n, c :: rest =>
    if c = '\n' then collapseNewlinesGo (n + 1) rest
    else emitNl n ++ c :: collapseNewlinesGo 0 rest

/-- `\n{4,}` → `'\n\n\n'`. -/
def collapseNewlines (l : List Char) : List Char :=
  collapseNewlinesGo 0 l

/-- Exact literal (for the back-reference `\1`). -/
def pExact : List Char → List Char → Option (List Char)
  | [], s => some s
  | _ :: _, [] => none
  | c :: cs, d :: ds => if d = c then pExact cs ds else none

/-- `\((\d+)\)\s*\(\1\)` → `(\1)` (fixes duplicate section numbers). -/
def mDupSection : Matcher := fun _ _ s => do
  let s1 ← pChr '(' s
  let (ds, s2) ← pDigits1 s1
  let s3 ← pChr ')' s2
  let s4 ← pChr '(' (pWS0 s3)
  let s5 ← pExact ds s4
  let rest ← pChr ')' s5
  some ('(' :: ds ++ [')'], s.length - rest.length)

/-- `clean_text(text)` (lines 424-431). -/
def clean_text (text : List Char) : List Char :=
  let text := applySub mArtEndOfPart text
  let text := applySub mArtPartDash text
  let text := applySub mArtInsertParen text
  let text := applySub mArtInsertBracket text
  let text := applySub mArtAngles text
  let text := applySub mArtFigureBracket text
  let text := applySub mArtImagePlaceholder text
  let text := applySub mArtPatentFigures text
  let text := collapseSpaceTab text
  let text := collapseNewlines text
  let text := applySub mDupSection text
  stripCh text

/-- String-level wrapper of `clean_text`. -/
def cleanTextStr (t : String) : String :=
  String.mk (clean_text t.data)

/-! ## `parse_sections` (lines 771-816)

A heading line is recognised by `re.match(f'^\\(?\\d*\\)?\\s*{pattern}',
upper)` over `SECTION_MARKERS` in order, with `len(line.strip()) < 120`;
`upper = line.strip().upper()`. -/

/-- The prefix `\(?\d*\)?\s*` of every marker pattern (greedy, and no
backtracking can help because every marker continues with a letter). -/
def secPre (s : List Char) : List Char :=
  let s := match s with
    | '(' :: r => r
    | _ => s
  let s := s.dropWhile isPyDigit
  let s := match s with
    | ')' :: r => r
    | _ => s
  s.dropWhile isPySpace

/-- `X\s*Y` marker body. -/
def pM2 (a b : String) (t : List Char) : Bool :=
  (do let r ← pCS a t; pCS b (pWS0 r)).isSome

/-- `SECTION_MARKERS` lookup, in declaration order.  The last entry embeds
`PCT|WIPO|BOILERPLATE`: the alternation binds loosely, so only the `PCT`
alternative carries the `^\(?\d*\)?\s*` prefix while `WIPO` and
`BOILERPLATE` are matched at the very start of the line. -/
def markerKey (upper : List Char) : Option String :=
  let t := secPre upper
  if (pCS "TITLE" t).isSome then some "title"
  else if (pCS "ABSTRACT" t).isSome then some "abstract"
  else if (pCS "FIELD" t).isSome then some "field"
  else if (pCS "BACKGROUND" t).isSome then some "background"
  else if (pCS "SUMMARY" t).isSome then some "summary"
  else if pM2 "BRIEF" "DESC" t then some "brief"
  else if pM2 "DETAILED" "DESC" t then some "detailed"
  else if (pCS "ENABLEMENT" t).isSome then some "enablement"
  else if (pCS "SECURITY" t).isSome then some "security"
  else if (pCS "COPYRIGHT" t).isSome then some "copyright"
  else if (pCS "ALTERNATIVE" t).isSome then some "alternatives"
  else if (pCS "SECONDARY" t).isSome then some "secondary"
  else if (pCS "CLAIM" t).isSome then some "claims"
  else if (do let r ← pCS "WHAT" t
              let r2 ← pCS "IS" (pWS0 r)
              pCS "CLAIMED" (pWS0 r2)).isSome then some "claims"
  else if (pCS "INDUSTRIAL" t).isSome then some "industrial"
  else if pM2 "BEST" "MODE" t then some "best_mode"
  else if (pCS "PCT" t).isSome || (pCS "WIPO" upper).isSome ||
          (pCS "BOILERPLATE" upper).isSome then some "boilerplate"
  else none

/-- Heading recognition for one line (`found` of the source loop). -/
def headingOf (line : List Char) : Option String :=
  let stripped := stripCh line
  if stripped.length < 120 then markerKey (upperCh stripped) else none

/-- Python `text.split('\n')`. -/
def splitNl : List Char → List (List Char)
  | [] => [[]]
  | '\n' :: rest => [] :: splitNl rest
  | c :: rest =>
    match splitNl rest with
    | h :: t => (c :: h) :: t
    | [] => [[c]]

/-- Python `'\n'.join(lines)`. -/
def joinNl : List (List Char) → List Char
  | [] => []
  | [x] => x
  | x :: xs => x ++ '\n' :: joinNl xs

/-- First binding of a key in the (insertion-ordered) section map. -/
def secGet (m : List (String × List Char)) (k : String) : Option (List Char) :=
  match m with
  | [] => none
  | (k2, v) :: rest => if k2 = k then some v else secGet rest k

/-- `dict.__setitem__`: overwrite in place or append. -/
def secSet (m : List (String × List Char)) (k : String) (v : List Char) :
    List (String × List Char) :=
  match m with
  | [] => [(k, v)]
  | (k2, v2) :: rest => if k2 = k then (k2, v) :: rest else (k2, v2) :: secSet rest k v

/-- `current in sections`. -/
def secContains (m : List (String × List Char)) (k : String) : Bool :=
  (secGet m k).isSome

/-- Flush on a heading match (lines 798-801): join and strip the
accumulator; store when the role is absent, append with a blank line when
the role is `claims`, discard otherwise. -/
def flushMid (sections : List (String × List Char)) (current : String)
    (content : List (List Char)) : List (String × List Char) :=
  if content = [] then sections else
  let txt := stripCh (joinNl content)
  if txt ≠ [] ∧ (¬ secContains sections current ∨ current = "claims") then
    secSet sections current
      (((secGet sections current).getD []) ++
        (if secContains sections current then "\n\n".data else []) ++ txt)
  else sections

/-- Flush at end of input (lines 807-809): store only when the role is
absent. -/
def flushFinal (sections : List (String × List Char)) (current : String)
    (content : List (List Char)) : List (String × List Char) :=
  if content = [] then sections else
  let txt := stripCh (joinNl content)
  if txt ≠ [] ∧ ¬ secContains sections current then
    secSet sections current txt
  else sections

/-- One line of the `parse_sections` loop. -/
def parseSectionsStep
    (st : List (String × List Char) × String × List (List Char))
    (line : List Char) :
    List (String × List Char) × String × List (List Char) :=
  let (sections, current, content) := st
  match headingOf line with
  | some found => (flushMid sections current content, found, [])
  | none => (sections, current, content ++ [line])

/-- `parse_sections(text)`. -/
def parse_sections (text : List Char) : List (String × List Char) :=
  let lines := splitNl text
  let st := lines.foldl parseSectionsStep ([], "preamble", [])
  flushFinal st.1 st.2.1 st.2.2

/-! ## `extract_claims` (lines 818-856) -/

/-- `CLAIMS?` (the optional `S` is immaterial to group 1 but matched
greedily) or `WHAT\s*IS\s*CLAIMED`, at one position. -/
def claimHeadPhrase (s : List Char) : Option (List Char) :=
  (do let r ← pCI "CLAIM" s
      some ((pCI "S" r).getD r)) <|>
  (do let r ← pCI "WHAT" s
      let r2 ← pCI "IS" (pWS0 r)
      pCI "CLAIMED" (pWS0 r2))

/-- `re.search(r'(?:CLAIMS?|WHAT\s*IS\s*CLAIMED)[^\n]*\n(.*)', text,
re.I | re.S)`: at the leftmost position where the phrase matches and a
newline follows it, group 1 is everything after that newline. -/
def claimsSearchRegion : Nat → List Char → Option (List Char)
  | 0, _ => none
  | Nat.succ fuel, s =>
    match s with
    | [] => none
    | _ :: rest =>
      match
        (do let r ← claimHeadPhrase s
            match r.dropWhile (fun c => c ≠ '\n') with
            | '\n' :: tail => some tail
            | _ => none) with
      | some g1 => some g1
      | none => claimsSearchRegion fuel rest

/-- The separator class `[\.\s—\-:]`. -/
def isSepClass (c : Char) : Bool :=
  c = '.' || isPySpace c || c = '—' || c = '-' || c = ':'

/-- `\s*(?:CLAIM\s*)?(\d{1,2})[\.\s—\-:]+` then a letter: the shared body of
the claim-block pattern and of its first lookahead. -/
def claimLabel (s : List Char) : Option (List Char × List Char) := do
  let t := pWS0 s
  let (ds, t2) ←
    (do let r ← pCI "CLAIM" t
        pDigits12excl (pWS0 r)) <|> pDigits12excl t
  let sep := t2.takeWhile isSepClass
  if sep.isEmpty then none else
  match t2.drop sep.length with
  | c :: rest => if isAsciiLetter c then some (ds, c :: rest) else none
  | [] => none

/-- Lookahead `\n\s*(?:CLAIM\s*)?\d{1,2}[\.\s—\-:]+[A-Z]`. -/
def lookNextClaim (t : List Char) : Bool :=
  match t with
  | '\n' :: u => (claimLabel u).isSome
  | _ => false

/-- Lookahead `\n\s*\(\d+\)\s*[A-Z]`. -/
def lookSectionHead (t : List Char) : Bool :=
  match t with
  | '\n' :: u =>
    (do let r ← pChr '(' (pWS0 u)
        let (_, r2) ← pDigits1 r
        let r3 ← pChr ')' r2
        match pWS0 r3 with
        | c :: _ => if isAsciiLetter c then some () else none
        | [] => none).isSome
  | _ => false

/-- The lazy `.*?` scan (with `re.S`, any character) up to the first
position where one of the three lookaheads holds (`\Z` = end of string). -/
def lazyBody : Nat → List Char → List Char → Option (List Char × List Char)
  | fuel, t, acc =>
    if lookNextClaim t || lookSectionHead t || t = [] then some (acc.reverse, t)
    else
      match fuel, t with
      | Nat.succ f, c :: u => lazyBody f u (c :: acc)
      | _, _ => none

/-- One claim-block match:
`(?:^|\n)\s*(?:CLAIM\s*)?(\d{1,2})[\.\s—\-:]+([A-Z].*?)(?=LOOKAHEADS)`. -/
def matchClaimBlock (pos : Nat) (s : List Char) :
    Option (Nat × List Char × List Char) := do
  let s1 ← if pos = 0 then some s else
    match s with
    | '\n' :: r => some r
    | _ => none
  let (ds, s2) ← claimLabel s1
  match s2 with
  | c :: s3 => do
    let (body, rest) ← lazyBody s3.length s3 []
    some (s.length - rest.length, ds, c :: body)
  | [] => none

/-- `pattern.finditer(search)`: leftmost, non-overlapping scan collecting
`(group 1, group 2)` of every match. -/
def findClaimBlocks : Nat → Nat → List Char → List (List Char × List Char)
  | 0, _, _ => []
  | Nat.succ fuel, pos, s =>
    match s with
    | [] => []
    | _ :: rest =>
      match matchClaimBlock pos s with
      | some (k, ds, g2) =>
        if k = 0 then findClaimBlocks fuel (pos + 1) rest
        else (ds, g2) :: findClaimBlocks fuel (pos + k) (s.drop k)
      | none => findClaimBlocks fuel (pos + 1) rest

/-- Scanner for `re.sub(r'\s+', ' ', txt)`: every maximal whitespace run
becomes one space. -/
def collapseWsRunsGo : Bool → List Char → List Char
  | inRun, [] => if inRun then [' '] else []
  | inRun, c :: rest =>
    if isPySpace c then collapseWsRunsGo true rest
    else if inRun then ' ' :: c :: collapseWsRunsGo false rest
    else c :: collapseWsRunsGo false rest

/-- `re.sub(r'\s+', ' ', txt)`. -/
def collapseWsRuns (l : List Char) : List Char :=
  collapseWsRunsGo false l

/-- Does `\s*\(\d+\)\s*[A-Z][A-Z\s]+` (case-sensitive) match this suffix
exactly up to the end of the string (the `$` anchor)? -/
def trailHeader1At (t : List Char) : Bool :=
  (do let r ← pChr '(' (pWS0 t)
      let (_, r2) ← pDigits1 r
      let r3 ← pChr ')' r2
      match pWS0 r3 with
      | c :: r4 =>
        if isUpperAZ c ∧ r4 ≠ [] ∧ r4.all (fun d => isUpperAZ d || isPySpace d)
        then some () else none
      | [] => none).isSome

/-- `re.sub(r'\s*\(\d+\)\s*[A-Z][A-Z\s]+$', '', txt)`: truncate at the
leftmost position from which the pattern matches to the end. -/
def stripTrailHeader1 : List Char → List Char
  | [] => []
  | c :: rest => if trailHeader1At (c :: rest) then [] else c :: stripTrailHeader1 rest

/-- The alternation `(INDUSTRIAL|BEST\s*MODE|PCT|WIPO)` (`re.IGNORECASE`). -/
def trailKeywordAt (t : List Char) : Bool :=
  (pCI "INDUSTRIAL" t).isSome ||
  (do let r ← pCI "BEST" t; pCI "MODE" (pWS0 r)).isSome ||
  (pCI "PCT" t).isSome || (pCI "WIPO" t).isSome

/-- `re.sub(r'\s*(INDUSTRIAL|BEST\s*MODE|PCT|WIPO).*$', '', txt,
flags=re.I)`: truncate at the leftmost `\s*KEYWORD` (the text reaching this
point contains no newline, so `.*$` is the rest of the string). -/
def stripTrailHeader2 : List Char → List Char
  | [] => []
  | c :: rest =>
    if trailKeywordAt (pWS0 (c :: rest)) then []
    else c :: stripTrailHeader2 rest

/-- The dependency back-reference pattern at one position:
`claim\s+\d+ | according\s+to\s+claim | as\s+(?:claimed|recited)\s+in\s+claim
| of\s+claim\s+\d+` (`re.IGNORECASE`). -/
def depPhraseAt (s : List Char) : Bool :=
  (do let r ← pCI "claim" s
      let r2 ← pWS1 r
      let (_, r3) ← pDigits1 r2
      some r3).isSome ||
  (do let r ← pCI "according" s
      let r2 ← pWS1 r
      let r3 ← pCI "to" r2
      let r4 ← pWS1 r3
      pCI "claim" r4).isSome ||
  (do let r ← pCI "as" s
      let r2 ← pWS1 r
      let r3 ← (pCI "claimed" r2) <|> (pCI "recited" r2)
      let r4 ← pWS1 r3
      let r5 ← pCI "in" r4
      let r6 ← pWS1 r5
      pCI "claim" r6).isSome ||
  (do let r ← pCI "of" s
      let r2 ← pWS1 r
      let r3 ← pCI "claim" r2
      let r4 ← pWS1 r3
      let (_, r5) ← pDigits1 r4
      some r5).isSome

/-- `re.search` of the dependency pattern. -/
def isDependentTxt : List Char → Bool
  | [] => false
  | c :: rest => depPhraseAt (c :: rest) || isDependentTxt rest

/-- A claim of the output list (dict `{'number', 'text', 'is_dependent'}`). -/
structure ClaimRecord where
  number : Nat
  text : String
  is_dependent : Bool
deriving Repr, DecidableEq

/-- The per-match body of the `extract_claims` loop: clean the captured
text, then admit the claim iff the number is unseen, `≤ 65`, and the cleaned
text has at least 20 characters. -/
def extractStep : List Nat × List ClaimRecord → List Char × List Char →
    List Nat × List ClaimRecord
  | (seen, claims), (nds, raw) =>
    let num := digitsToNat nds
    let txt := stripTrailHeader2 (stripTrailHeader1 (stripCh (collapseWsRuns raw)))
    if num ∉ seen ∧ num ≤ 65 ∧ txt.length ≥ 20 then
      (num :: seen, claims ++ [⟨num, String.mk txt, isDependentTxt txt⟩])
    else (seen, claims)

/-- Stable ascending insertion (the `list.sort(key=lambda x: x['number'])`
of the source is a stable sort on the number). -/
def insertByNum (c : ClaimRecord) : List ClaimRecord → List ClaimRecord
  | [] => [c]
  | d :: rest =>
    if d.number ≤ c.number then d :: insertByNum c rest else c :: d :: rest

def sortByNum (l : List ClaimRecord) : List ClaimRecord :=
  l.foldl (fun acc c => insertByNum c acc) []

/-- `extract_claims(text)`. -/
def extract_claims (text : List Char) : List ClaimRecord :=
  let search := (claimsSearchRegion text.length text).getD text
  let ms := findClaimBlocks (search.length + 1) 0 search
  let st := ms.foldl extractStep ([], [])
  sortByNum st.2

/-! ## Observers used by the claim statements -/

/-- No two consecutive whitespace characters. -/
def chkNoDoubleWS : List Char → Bool
  | [] => true
  | [_] => true
  | a :: b :: rest => !(isPySpace a && isPySpace b) && chkNoDoubleWS (b :: rest)

/-- The marker numbers of a text: every occurrence of the literal `FIG. `
followed by a digit run (the canonical marker shape named by the claims). -/
def figMarkerNumbersGo : Nat → List Char → List Nat
  | 0, _ => []
  | Nat.succ fuel, s =>
    match s with
    | [] => []
    | _ :: rest =>
      match (do let r ← pCS "FIG. " s; pDigits1 r) with
      | some (ds, r2) => digitsToNat ds :: figMarkerNumbersGo fuel r2
      | none => figMarkerNumbersGo fuel rest

def figMarkerNumbers (t : String) : List Nat :=
  figMarkerNumbersGo t.data.length t.data

/-- Python `needle in hay` on strings. -/
def containsStr (needle hay : String) : Bool :=
  containsSub needle.data hay.data

/-! ## Specification-side context resolver (for C3)

`resolverBy bonus` is written from the spec's wording, structured as the
spec describes it (score every `(entry, keyword)` pair in declaration order,
take the maximum, the first pair to reach it wins, default 1 when no keyword
occurs) — deliberately not as the source's running-maximum loop, so that the
equivalence below is meaningful. -/

/-- Score of one keyword against the lowered window: `2 × length`, plus `5`
when `bonus` grants the whole-phrase bonus; `0` when the keyword does not
occur. -/
def scoreOfKeyword (bonus : List Char → List Char → Bool)
    (cl kw : List Char) : Nat :=
  if containsSub kw cl then kw.length * 2 + (if bonus kw cl then 5 else 0) else 0

/-- The source's bonus condition: `f" {keyword} " in f" {context_lower} "` —
the keyword bounded by single spaces inside the space-padded window. -/
def bonusSpacePadded (kw cl : List Char) : Bool :=
  containsSub (' ' :: (kw ++ [' '])) (' ' :: (cl ++ [' ']))

def leftBoundaryWS : Option Char → Bool
  | none => true
  | some c => isPySpace c

def rightBoundaryWS : List Char → Bool
  | [] => true
  | c :: _ => isPySpace c

/-- Occurrence of `kw` bounded by whitespace (or a string boundary),
scanning with the preceding character as state. -/
def bddWSFrom (kw : List Char) : Option Char → List Char → Bool
  | prev, s =>
    (isPrefixCh kw s && leftBoundaryWS prev && rightBoundaryWS (s.drop kw.length)) ||
    (match s with
     | _ :: rest => bddWSFrom kw (some (s.headD ' ')) rest
     | [] => false)

/-- Modelled from the claim's wording (C3): the bonus applies when the
keyword occurrence is bounded by whitespace. -/
def bonusWhitespaceBounded (kw cl : List Char) : Bool :=
  bddWSFrom kw none cl

/-- Scored `(figure number, score)` pairs in catalog declaration order. -/
def resolverPairs (bonus : List Char → List Char → Bool)
    (cl : List Char) : List (Nat × Nat) :=
  (FIGURES.map (fun f =>
    f.keywords.map (fun kw => (f.num, scoreOfKeyword bonus cl kw.data)))).flatten

/-- The maximal score of the pair list. -/
def maxScore (ps : List (Nat × Nat)) : Nat :=
  ps.foldr (fun p acc => max p.2 acc) 0

/-- Specification-style resolver: maximum score, first achiever wins,
default figure 1 when no keyword occurs. -/
def resolverBy (bonus : List Char → List Char → Bool)
    (context : List Char) : Nat :=
  let cl := lowerCh context
  let ps := resolverPairs bonus cl
  let M := maxScore ps
  if M = 0 then 1 else ((ps.find? (fun p => p.2 == M)).map Prod.fst).getD 1

/-- The resolver as the spec and the amended C3 describe it (space-padded
whole-phrase bonus, as in the source). -/
def resolverSpecSpace (context : List Char) : Nat :=
  resolverBy bonusSpacePadded context

/-- Modelled from the claim's wording (C3): the resolver with a
whitespace-bounded whole-phrase bonus. -/
def resolverClaimWhitespace (context : List Char) : Nat :=
  resolverBy bonusWhitespaceBounded context

/-! ### Equivalence of the source loop with the specification-style resolver -/

/-- The strict-greater update of the source's running maximum. -/
def updBest (b p : Nat × Nat) : Nat × Nat :=
  if p.2 > b.2 then p else b

theorem considerKeyword_eq_upd (cl : List Char) (num : Nat) (b : Nat × Nat)
    (kw : List Char) :
    considerKeyword cl num b kw = updBest b (num, scoreOfKeyword bonusSpacePadded cl kw) := by
  unfold considerKeyword scoreOfKeyword updBest bonusSpacePadded
  by_cases h : containsSub kw cl
  · simp only [h, if_true]
    by_cases h2 : containsSub (' ' :: (kw ++ [' '])) (' ' :: (cl ++ [' ']))
    · simp [h2]
    · simp [h2]
  · simp [h, updBest]

theorem maxScore_cons (p : Nat × Nat) (ps : List (Nat × Nat)) :
    maxScore (p :: ps) = max p.2 (maxScore ps) := rfl

theorem le_maxScore_of_mem {p : Nat × Nat} {ps : List (Nat × Nat)}
    (h : p ∈ ps) : p.2 ≤ maxScore ps := by
  induction ps with
  | nil => cases h
  | cons q rest ih =>
    rw [maxScore_cons]
    rcases List.mem_cons.mp h with h1 | h1
    · subst h1; exact Nat.le_max_left _ _
    · exact Nat.le_trans (ih h1) (Nat.le_max_right _ _)

theorem foldl_updBest_const {ps : List (Nat × Nat)} {b : Nat × Nat}
    (h : ∀ p ∈ ps, p.2 ≤ b.2) : ps.foldl updBest b = b := by
  induction ps with
  | nil => rfl
  | cons q rest ih =>
    have hq : q.2 ≤ b.2 := h q (List.mem_cons_self _ _)
    have hb : updBest b q = b := by
      unfold updBest
      have : ¬ q.2 > b.2 := Nat.not_lt.mpr hq
      simp [this]
    rw [List.foldl_cons, hb]
    exact ih (fun p hp => h p (List.mem_cons_of_mem _ hp))

theorem foldl_updBest_max {ps : List (Nat × Nat)} :
    ∀ {b : Nat × Nat}, b.2 < maxScore ps →
    ∃ q, ps.find? (fun p => p.2 == maxScore ps) = some q ∧
      ps.foldl updBest b = q := by
  induction ps with
  | nil => intro b h; simp [maxScore] at h
  | cons p rest ih =>
    intro b h
    rw [maxScore_cons] at h
    by_cases hp : p.2 = maxScore (p :: rest)
    · refine ⟨p, ?_, ?_⟩
      · simp [List.find?, hp]
      · have hgt : p.2 > b.2 := by
          rw [hp, maxScore_cons]; exact h
        have hupd : updBest b p = p := by unfold updBest; simp [hgt]
        rw [List.foldl_cons, hupd]
        exact foldl_updBest_const (fun q hq =>
          hp ▸ Nat.le_trans (le_maxScore_of_mem hq) (by rw [maxScore_cons]; exact Nat.le_max_right _ _))
    · rw [maxScore_cons] at hp
      have hM : maxScore (p :: rest) = maxScore rest := by
        rw [maxScore_cons]; omega
      have hplt : p.2 < maxScore rest := by omega
      have hb2 : (updBest b p).2 < maxScore rest := by
        unfold updBest
        by_cases hg : p.2 > b.2
        · simp only [hg, if_true]; exact hplt
        · simp only [hg, if_false]; omega
      obtain ⟨q, hq1, hq2⟩ := ih hb2
      refine ⟨q, ?_, ?_⟩
      · have hfalse : (p.2 == maxScore rest) = false := by
          simp only [beq_eq_false_iff_ne, ne_eq]; omega
        simp [List.find?, hM, hfalse, hq1]
      · rw [List.foldl_cons, hq2]

theorem inner_fold_eq (cl : List Char) (n : Nat) :
    ∀ (kws : List String) (b : Nat × Nat),
    (kws.map String.data).foldl (considerKeyword cl n) b
      = (kws.map (fun kw => (n, scoreOfKeyword bonusSpacePadded cl kw.data))).foldl updBest b := by
  intro kws
  induction kws with
  | nil => intro b; rfl
  | cons k rest ih =>
    intro b
    simp only [List.map_cons, List.foldl_cons, considerKeyword_eq_upd]
    exact ih _

theorem outer_fold_eq (cl : List Char) :
    ∀ (figs : List FigureDef) (b : Nat × Nat),
    figs.foldl (fun best fig =>
        (fig.keywords.map String.data).foldl (considerKeyword cl fig.num) best) b
      = ((figs.map (fun f =>
          f.keywords.map (fun kw => (f.num, scoreOfKeyword bonusSpacePadded cl kw.data)))).flatten).foldl
          updBest b := by
  intro figs
  induction figs with
  | nil => intro b; rfl
  | cons f rest ih =>
    intro b
    simp only [List.map_cons, List.flatten_cons, List.foldl_cons, List.foldl_append]
    rw [inner_fold_eq]
    exact ih _

/-- The source resolver equals the specification-style resolver with the
space-padded bonus, for every window. -/
theorem resolver_eq_spec (ctx : List Char) :
    get_figure_number_from_context ctx = resolverSpecSpace ctx := by
  have hfold :
      get_figure_number_from_context ctx
        = ((resolverPairs bonusSpacePadded (lowerCh ctx)).foldl updBest (1, 0)).1 := by
    exact congrArg Prod.fst (outer_fold_eq (lowerCh ctx) FIGURES (1, 0))
  rw [hfold]
  unfold resolverSpecSpace resolverBy
  set ps := resolverPairs bonusSpacePadded (lowerCh ctx) with hps
  by_cases hM : maxScore ps = 0
  · have hconst : ps.foldl updBest (1, 0) = (1, 0) :=
      foldl_updBest_const (fun p hp => by
        have := le_maxScore_of_mem hp
        omega)
    simp [hconst, hM]
  · have hlt : ((1, 0) : Nat × Nat).2 < maxScore ps := Nat.pos_of_ne_zero hM
    obtain ⟨q, hf, he⟩ := foldl_updBest_max hlt
    simp [he, hM, hf]

/-! ### The final cleanup pass leaves no two adjacent whitespace characters -/

theorem chk_cons_of_snd_not_ws {c : Char} (h : isPySpace c = false)
    (a : Char) (l : List Char) :
    chkNoDoubleWS (a :: c :: l) = chkNoDoubleWS (c :: l) := by
  simp [chkNoDoubleWS, h]

theorem chk_cons_not_ws {c : Char} (h : isPySpace c = false) (l : List Char) :
    chkNoDoubleWS (c :: l) = chkNoDoubleWS l := by
  cases l with
  | nil => simp [chkNoDoubleWS]
  | cons b t => simp [chkNoDoubleWS, h]

theorem chk_collapseSpacesGo :
    ∀ (s : List Char) (st : Option (Char × Bool)),
    chkNoDoubleWS (collapseSpacesGo st s) = true := by
  intro s
  induction s with
  | nil =>
    intro st
    rcases st with _ | ⟨w, more⟩
    · rfl
    · cases more <;> rfl
  | cons c rest ih =>
    intro st
    rcases st with _ | ⟨w, more⟩
    · simp only [collapseSpacesGo]
      rcases hc : isPySpace c with _ | _
      · simp only [Bool.false_eq_true, if_false]
        rw [chk_cons_not_ws hc]
        exact ih _
      · simp only [if_true]
        exact ih _
    · simp only [collapseSpacesGo]
      rcases hc : isPySpace c with _ | _
      · simp only [Bool.false_eq_true, if_false]
        cases more <;>
          simp only [if_true, if_false, Bool.false_eq_true, List.cons_append,
            List.nil_append] <;>
          rw [chk_cons_of_snd_not_ws hc, chk_cons_not_ws hc] <;>
          exact ih _
      · simp only [if_true]
        exact ih _

theorem chk_collapseSpaces (s : List Char) :
    chkNoDoubleWS (collapseSpaces s) = true :=
  chk_collapseSpacesGo s none

/-! ### Identity of substitution passes on match-free texts (for C8) -/

/-- The three characters of the C8 witness family. -/
def chars3 (c : Char) : Bool :=
  c = 'a' || c = '\n' || c = 'b'

theorem chars3_elim {c : Char} (h : chars3 c = true) :
    c = 'a' ∨ c = '\n' ∨ c = 'b' := by
  simp only [chars3, Bool.or_eq_true, decide_eq_true_eq] at h
  tauto

theorem applySubGo_id {m : Matcher} {full : List Char} {P : Char → Bool}
    (hm : ∀ pos s, s.all P = true → m full pos s = none) :
    ∀ (fuel pos : Nat) (s : List Char), s.all P = true →
    applySubGo m full fuel pos s = s := by
  intro fuel
  induction fuel with
  | zero => intro pos s _; rfl
  | succ fuel ih =>
    intro pos s hs
    cases s with
    | nil => rfl
    | cons c rest =>
      have hrest : rest.all P = true := by
        simp only [List.all_cons, Bool.and_eq_true] at hs
        exact hs.2
      simp only [applySubGo, hm pos (c :: rest) hs]
      exact congrArg (c :: ·) (ih (pos + 1) rest hrest)

theorem applySub_id {m : Matcher} {P : Char → Bool}
    (hm : ∀ (full : List Char) pos s, s.all P = true → m full pos s = none)
    {full : List Char} (hf : full.all P = true) :
    applySub m full = full :=
  applySubGo_id (hm full) (full.length + 1) 0 full hf

theorem mArtEndOfPart_none (full : List Char) :
    ∀ pos s, s.all chars3 = true → mArtEndOfPart full pos s = none := by
  intro pos s hs
  cases s with
  | nil => rfl
  | cons c rest =>
    have hc : chars3 c = true := by
      simp only [List.all_cons, Bool.and_eq_true] at hs
      exact hs.1
    rcases chars3_elim hc with h | h | h <;> subst h <;> rfl

theorem mArtPartDash_none (full : List Char) :
    ∀ pos s, s.all chars3 = true → mArtPartDash full pos s = none := by
  intro pos s hs
  cases s with
  | nil => rfl
  | cons c rest =>
    have hc : chars3 c = true := by
      simp only [List.all_cons, Bool.and_eq_true] at hs
      exact hs.1
    rcases chars3_elim hc with h | h | h <;> subst h <;> rfl

theorem mArtInsertParen_none (full : List Char) :
    ∀ pos s, s.all chars3 = true → mArtInsertParen full pos s = none := by
  intro pos s hs
  cases s with
  | nil => rfl
  | cons c rest =>
    have hc : chars3 c = true := by
      simp only [List.all_cons, Bool.and_eq_true] at hs
      exact hs.1
    rcases chars3_elim hc with h | h | h <;> subst h <;> rfl

theorem mArtInsertBracket_none (full : List Char) :
    ∀ pos s, s.all chars3 = true → mArtInsertBracket full pos s = none := by
  intro pos s hs
  cases s with
  | nil => rfl
  | cons c rest =>
    have hc : chars3 c = true := by
      simp only [List.all_cons, Bool.and_eq_true] at hs
      exact hs.1
    rcases chars3_elim hc with h | h | h <;> subst h <;> rfl

theorem mArtAngles_none (full : List Char) :
    ∀ pos s, s.all chars3 = true → mArtAngles full pos s = none := by
  intro pos s hs
  cases s with
  | nil => rfl
  | cons c rest =>
    have hc : chars3 c = true := by
      simp only [List.all_cons, Bool.and_eq_true] at hs
      exact hs.1
    rcases chars3_elim hc with h | h | h <;> subst h <;> rfl

theorem mArtFigureBracket_none (full : List Char) :
    ∀ pos s, s.all chars3 = true → mArtFigureBracket full pos s = none := by
  intro pos s hs
  cases s with
  | nil => rfl
  | cons c rest =>
    have hc : chars3 c = true := by
      simp only [List.all_cons, Bool.and_eq_true] at hs
      exact hs.1
    rcases chars3_elim hc with h | h | h <;> subst h <;> rfl

theorem mArtImagePlaceholder_none (full : List Char) :
    ∀ pos s, s.all chars3 = true → mArtImagePlaceholder full pos s = none := by
  intro pos s hs
  cases s with
  | nil => rfl
  | cons c rest =>
    have hc : chars3 c = true := by
      simp only [List.all_cons, Bool.and_eq_true] at hs
      exact hs.1
    rcases chars3_elim hc with h | h | h <;> subst h <;> rfl

theorem mArtPatentFigures_none (full : List Char) :
    ∀ pos s, s.all chars3 = true → mArtPatentFigures full pos s = none := by
  intro pos s hs
  cases s with
  | nil => rfl
  | cons c rest =>
    have hc : chars3 c = true := by
      simp only [List.all_cons, Bool.and_eq_true] at hs
      exact hs.1
    rcases chars3_elim hc with h | h | h <;> subst h <;> rfl

theorem mDupSection_none (full : List Char) :
    ∀ pos s, s.all chars3 = true → mDupSection full pos s = none := by
  intro pos s hs
  cases s with
  | nil => rfl
  | cons c rest =>
    have hc : chars3 c = true := by
      simp only [List.all_cons, Bool.and_eq_true] at hs
      exact hs.1
    rcases chars3_elim hc with h | h | h <;> subst h <;> rfl

theorem all_replicate_of {P : Char → Bool} {c : Char} (h : P c = true) :
    ∀ n, (List.replicate n c).all P = true := by
  intro n
  induction n with
  | zero => rfl
  | succ n ih => simp [List.replicate_succ, List.all_cons, h, ih]

/-- The C8 witness family: a letter, `k + 4` line breaks, a letter. -/
def famNl (k : Nat) : List Char :=
  'a' :: List.replicate (k + 4) '\n' ++ ['b']

theorem famNl_all (k : Nat) : (famNl k).all chars3 = true := by
  simp [famNl, List.all_cons, List.all_append,
    all_replicate_of (by rfl : chars3 '\n' = true), chars3]

theorem collapseSpaceTabGo_id_chars3 :
    ∀ s, s.all chars3 = true → collapseSpaceTabGo false s = s := by
  intro s
  induction s with
  | nil => intro _; rfl
  | cons c rest ih =>
    intro hs
    simp only [List.all_cons, Bool.and_eq_true] at hs
    have hc : (c = ' ' || c = '\t') = false := by
      rcases chars3_elim hs.1 with h | h | h <;> subst h <;> rfl
    simp only [collapseSpaceTabGo, hc, Bool.false_eq_true, if_false]
    exact congrArg (c :: ·) (ih hs.2)

theorem collapseNewlinesGo_nl (t : List Char) (n : Nat) :
    collapseNewlinesGo n ('\n' :: t) = collapseNewlinesGo (n + 1) t := rfl

theorem cnl_run :
    ∀ (k n : Nat), collapseNewlinesGo n (List.replicate k '\n' ++ ['b']) =
      emitNl (n + k) ++ ['b'] := by
  intro k
  induction k with
  | zero =>
    intro n
    have h1 : collapseNewlinesGo n (List.replicate 0 '\n' ++ ['b'])
        = emitNl n ++ 'b' :: collapseNewlinesGo 0 [] := rfl
    rw [h1]
    have h2 : collapseNewlinesGo 0 ([] : List Char) = [] := rfl
    rw [h2, Nat.add_zero]
  | succ k ih =>
    intro n
    rw [List.replicate_succ, List.cons_append, collapseNewlinesGo_nl, ih (n + 1)]
    have : n + 1 + k = n + (k + 1) := by omega
    rw [this]

theorem cnl_fam (k : Nat) :
    collapseNewlines (famNl k) = 'a' :: '\n' :: '\n' :: '\n' :: ['b'] := by
  have h0 : collapseNewlines (famNl k)
      = emitNl 0 ++ 'a' :: collapseNewlinesGo 0 (List.replicate (k + 4) '\n' ++ ['b']) := rfl
  rw [h0, cnl_run]
  have h4 : emitNl (0 + (k + 4)) = ['\n', '\n', '\n'] := by
    unfold emitNl
    rw [if_pos (by omega : 0 + (k + 4) ≥ 4)]
    rfl
  rw [h4]
  rfl

theorem strip_of_ends {a b : Char} (ha : isPySpace a = false)
    (hb : isPySpace b = false) (mid : List Char) :
    stripCh (a :: mid ++ [b]) = a :: mid ++ [b] := by
  unfold stripCh
  have h1 : (a :: mid ++ [b]).dropWhile isPySpace = a :: mid ++ [b] := by
    simp [List.dropWhile_cons, ha]
  rw [h1]
  have h2 : (a :: mid ++ [b]).reverse = b :: (mid.reverse ++ [a]) := by
    simp
  rw [h2]
  have h3 : (b :: (mid.reverse ++ [a])).dropWhile isPySpace
      = b :: (mid.reverse ++ [a]) := by
    simp [List.dropWhile_cons, hb]
  rw [h3]
  simp

/-! ### Section-map lemmas (for C5) -/

theorem secGet_secSet_self :
    ∀ (m : List (String × List Char)) (k : String) (v : List Char),
    secGet (secSet m k v) k = some v := by
  intro m
  induction m with
  | nil => intro k v; simp [secSet, secGet]
  | cons p rest ih =>
    intro k v
    by_cases h : p.1 = k
    · simp [secSet, secGet, h]
    · simp only [secSet, secGet, h, if_false]
      exact ih k v

/-- Lookup after a heading-triggered flush: an empty accumulator or
whitespace-only text changes nothing; otherwise a fresh role receives the
text, `claims` accumulates with a blank line, any other occupied role keeps
its old text. -/
theorem flushMid_lookup (m : List (String × List Char)) (cur : String)
    (content : List (List Char)) :
    secGet (flushMid m cur content) cur =
      if content = [] ∨ stripCh (joinNl content) = [] then secGet m cur
      else
        match secGet m cur with
        | none => some (stripCh (joinNl content))
        | some old =>
          if cur = "claims" then some (old ++ "\n\n".data ++ stripCh (joinNl content))
          else some old := by
  unfold flushMid
  by_cases h1 : content = []
  · simp [h1]
  by_cases h2 : stripCh (joinNl content) = []
  · simp [h1, h2, secContains]
  cases hg : secGet m cur with
  | none =>
    have hc : secContains m cur = false := by simp [secContains, hg]
    simp [h1, h2, hc, hg, secGet_secSet_self]
  | some old =>
    have hc : secContains m cur = true := by simp [secContains, hg]
    by_cases hcl : cur = "claims"
    · subst hcl
      simp [h1, h2, hc, hg, secGet_secSet_self]
    · simp [h1, h2, hc, hg, hcl]

/-- Lookup after the final flush: the block is kept only when the role holds
no content yet — even for `claims`. -/
theorem flushFinal_lookup (m : List (String × List Char)) (cur : String)
    (content : List (List Char)) :
    secGet (flushFinal m cur content) cur =
      if content = [] ∨ stripCh (joinNl content) = [] then secGet m cur
      else
        match secGet m cur with
        | none => some (stripCh (joinNl content))
        | some old => some old := by
  unfold flushFinal
  by_cases h1 : content = []
  · simp [h1]
  by_cases h2 : stripCh (joinNl content) = []
  · simp [h1, h2, secContains]
  cases hg : secGet m cur with
  | none =>
    have hc : secContains m cur = false := by simp [secContains, hg]
    simp [h1, h2, hc, hg, secGet_secSet_self]
  | some old =>
    have hc : secContains m cur = true := by simp [secContains, hg]
    simp [h1, h2, hc, hg]

/-! ### Admission lemma (for C6) -/

/-- A candidate block is admitted (the claim list grows) iff its number is
unseen and `≤ 65` and its cleaned text has at least 20 characters — where
the cleaned text is the whitespace-collapsed text with trailing
section-header fragments stripped. -/
theorem extractStep_admits_iff (seen : List Nat) (claims : List ClaimRecord)
    (nds raw : List Char) :
    (extractStep (seen, claims) (nds, raw)).2.length = claims.length + 1 ↔
      (digitsToNat nds ∉ seen ∧ digitsToNat nds ≤ 65 ∧
        20 ≤ (stripTrailHeader2 (stripTrailHeader1 (stripCh (collapseWsRuns raw)))).length) := by
  simp only [extractStep]
  by_cases h : digitsToNat nds ∉ seen ∧ digitsToNat nds ≤ 65 ∧
      (stripTrailHeader2 (stripTrailHeader1 (stripCh (collapseWsRuns raw)))).length ≥ 20
  · rw [if_pos h]
    constructor
    · intro _
      exact ⟨h.1, h.2.1, h.2.2⟩
    · intro _
      simp
  · rw [if_neg h]
    constructor
    · intro hlen
      simp at hlen
    · intro hcond; exact absurd ⟨hcond.1, hcond.2.1, hcond.2.2⟩ h

/-! ### Ordering and uniqueness of the extracted claims (for C7) -/

theorem insertByNum_perm (c : ClaimRecord) :
    ∀ (l : List ClaimRecord), (insertByNum c l).Perm (c :: l) := by
  intro l
  induction l with
  | nil => exact List.Perm.refl _
  | cons d rest ih =>
    unfold insertByNum
    by_cases h : d.number ≤ c.number
    · simp only [h, if_true]
      exact (ih.cons d).trans (List.Perm.swap c d rest)
    · simp only [h, if_false]
      exact List.Perm.refl _

theorem sortByNum_perm_aux :
    ∀ (l : List ClaimRecord) (acc : List ClaimRecord),
    (l.foldl (fun a c => insertByNum c a) acc).Perm (l ++ acc) := by
  intro l
  induction l with
  | nil => intro acc; simp
  | cons c rest ih =>
    intro acc
    simp only [List.foldl_cons, List.cons_append]
    exact ((ih (insertByNum c acc)).trans
      (List.Perm.append_left rest (insertByNum_perm c acc))).trans
      List.perm_middle

theorem sortByNum_perm (l : List ClaimRecord) : (sortByNum l).Perm l := by
  have h := sortByNum_perm_aux l []
  simpa [sortByNum] using h

/-- Sortedness order on records. -/
def recLe (a b : ClaimRecord) : Prop := a.number ≤ b.number

theorem insertByNum_sorted (c : ClaimRecord) :
    ∀ (l : List ClaimRecord), l.Pairwise recLe → (insertByNum c l).Pairwise recLe := by
  intro l
  induction l with
  | nil => intro _; simp [insertByNum, List.Pairwise]
  | cons d rest ih =>
    intro hs
    rcases List.pairwise_cons.mp hs with ⟨hd, hrest⟩
    unfold insertByNum
    by_cases h : d.number ≤ c.number
    · simp only [h, if_true]
      refine List.pairwise_cons.mpr ⟨?_, ih hrest⟩
      intro x hx
      rcases List.mem_cons.mp (((insertByNum_perm c rest).mem_iff).mp hx) with h1 | h1
      · subst h1; exact h
      · exact hd x h1
    · simp only [h, if_false]
      refine List.pairwise_cons.mpr ⟨?_, hs⟩
      intro x hx
      rcases List.mem_cons.mp hx with h1 | h1
      · subst h1; exact Nat.le_of_lt (Nat.lt_of_not_le h)
      · exact Nat.le_trans (Nat.le_of_lt (Nat.lt_of_not_le h)) (hd x h1)

theorem sortByNum_sorted_aux :
    ∀ (l : List ClaimRecord) (acc : List ClaimRecord), acc.Pairwise recLe →
    (l.foldl (fun a c => insertByNum c a) acc).Pairwise recLe := by
  intro l
  induction l with
  | nil => intro acc h; exact h
  | cons c rest ih =>
    intro acc h
    exact ih _ (insertByNum_sorted c acc h)

theorem sortByNum_sorted (l : List ClaimRecord) :
    (sortByNum l).Pairwise recLe :=
  sortByNum_sorted_aux l [] (by simp)

/-- Fold invariant: every emitted record's number is in the seen set and
`≤ 65`, and the numbers are pairwise distinct. -/
theorem extract_fold_inv :
    ∀ (ms : List (List Char × List Char)) (seen : List Nat)
      (claims : List ClaimRecord),
    (∀ c ∈ claims, c.number ∈ seen ∧ c.number ≤ 65) →
    (claims.map ClaimRecord.number).Pairwise (· ≠ ·) →
    (∀ c ∈ (ms.foldl extractStep (seen, claims)).2,
        c.number ∈ (ms.foldl extractStep (seen, claims)).1 ∧ c.number ≤ 65) ∧
    ((ms.foldl extractStep (seen, claims)).2.map ClaimRecord.number).Pairwise (· ≠ ·) := by
  intro ms
  induction ms with
  | nil => intro seen claims h1 h2; exact ⟨h1, h2⟩
  | cons m rest ih =>
    intro seen claims h1 h2
    obtain ⟨nds, raw⟩ := m
    rw [List.foldl_cons]
    rcases hstep : extractStep (seen, claims) (nds, raw) with ⟨seen2, claims2⟩
    simp only [extractStep] at hstep
    by_cases hc : digitsToNat nds ∉ seen ∧ digitsToNat nds ≤ 65 ∧
        (stripTrailHeader2 (stripTrailHeader1 (stripCh (collapseWsRuns raw)))).length ≥ 20
    · rw [if_pos hc] at hstep
      injection hstep with hseen hclaims
      subst hseen; subst hclaims
      apply ih
      · intro c hcmem
        rcases List.mem_append.mp hcmem with hmem | hmem
        · rcases h1 c hmem with ⟨hin, hle⟩
          exact ⟨List.mem_cons_of_mem _ hin, hle⟩
        · rcases List.mem_singleton.mp hmem with rfl
          exact ⟨List.mem_cons_self _ _, hc.2.1⟩
      · rw [List.map_append]
        apply List.pairwise_append.mpr
        refine ⟨h2, by simp [List.Pairwise], ?_⟩
        intro x hx y hy
        simp only [List.map_cons, List.map_nil, List.mem_singleton] at hy
        subst hy
        rcases List.mem_map.mp hx with ⟨c, hcmem, rfl⟩
        intro heq
        exact hc.1 (heq ▸ (h1 c hcmem).1)
    · rw [if_neg hc] at hstep
      injection hstep with hseen hclaims
      subst hseen; subst hclaims
      exact ih seen claims h1 h2

/-! ## Claim theorems -/

set_option maxRecDepth 1000000

/-- C1: the claim requires repair to be idempotent
(`fix_all(fix_all(T)) = fix_all(T)` for every `T`); the code violates it.
On `"as shown in. 5 steps follow."` the first run inserts `FIG. 1` before
the sentence-final period, producing `... FIG. 1. 1. 5 steps ...`, and a
second run then collapses the repaired marker with the following
sentence-initial numbers (`STEP 1`), changing the text again. -/
theorem C1_repair_not_idempotent :
    fixAllFigureReferencesStr "as shown in. 5 steps follow."
      = "as shown in FIG. 1. 1. 5 steps follow." ∧
    fixAllFigureReferencesStr "as shown in FIG. 1. 1. 5 steps follow."
      = "as shown in FIG. 1. 1 steps follow." ∧
    fixAllFigureReferencesStr (fixAllFigureReferencesStr "as shown in. 5 steps follow.")
      ≠ fixAllFigureReferencesStr "as shown in. 5 steps follow." := by
  have e1 : fixAllFigureReferencesStr "as shown in. 5 steps follow."
      = "as shown in FIG. 1. 1. 5 steps follow." := rfl
  have e2 : fixAllFigureReferencesStr "as shown in FIG. 1. 1. 5 steps follow."
      = "as shown in FIG. 1. 1 steps follow." := rfl
  refine ⟨e1, e2, ?_⟩
  rw [e1, e2]
  decide

/-- C2, counterexample: the output of `fix_all_figure_references` can carry
a marker number outside `[1, 17]` — on `"FIG .99"` the spacing pass of STEP
10 assembles the marker `FIG. 99` only after the validation pass of STEP 8
has already run, so `99` survives.  Also, the claimed wrap-around formula
`((v-1) mod 17) + 1` disagrees with the code for `v = 0`: the formula gives
`17` while `validate_fig` clamps to `1`. -/
theorem C2_range_counterexample :
    figMarkerNumbers (fixAllFigureReferencesStr "FIG .99") = [99] ∧
    ¬ (∀ n ∈ figMarkerNumbers (fixAllFigureReferencesStr "FIG .99"), 1 ≤ n ∧ n ≤ 17) ∧
    fixAllFigureReferencesStr "FIG. 0" = "FIG. 1" ∧
    ((0 : Int) - 1) % 17 + 1 = 17 ∧ (17 : Int) ≠ 1 := by
  have e1 : figMarkerNumbers (fixAllFigureReferencesStr "FIG .99") = [99] := rfl
  refine ⟨e1, ?_, rfl, by decide, by decide⟩
  intro hall
  have h99 := hall 99 (by rw [e1]; exact List.mem_singleton.mpr rfl)
  omega

/-- C2, amended: every numeric marker processed by the validation pass
(`validate_fig`, STEP 8) is mapped into `[1, 17]` — values above 17 by the
wrap-around `((v-1) mod 17) + 1` and values below 1 to 1 — but a marker
assembled by a later pass can remain out of range. -/
theorem C2_validate_amended :
    (∀ v : Nat, 1 ≤ validate_fig v ∧ validate_fig v ≤ 17) ∧
    (∀ v : Nat, validate_fig (v + 18) = ((v + 18 - 1) % 17) + 1) ∧
    validate_fig 0 = 1 ∧
    fixAllFigureReferencesStr "FIG. 99" = "FIG. 14" := by
  refine ⟨?_, ?_, rfl, rfl⟩
  · intro v
    unfold validate_fig
    by_cases h1 : v < 1
    · simp [h1]
    · by_cases h2 : v > 17
      · rw [if_neg h1, if_pos h2]
        have := Nat.mod_lt (v - 1) (show 0 < 17 by omega)
        omega
      · rw [if_neg h1, if_neg h2]
        omega
  · intro v
    unfold validate_fig
    rw [if_neg (by omega), if_pos (by omega)]

/-- C3, counterexample: the claimed bonus condition (keyword bounded by
whitespace) differs from the code, whose bonus needs single spaces on both
sides (in the space-padded window).  On the window `"xprosodyx\tvalence\t"`,
`valence` (entry 8) is tab-bounded: under the claim's rule it scores
`14 + 5 = 19` and wins, but the code scores it `14`, tying with `prosody`
(entry 6), and the strict tie-break keeps entry 6. -/
theorem C3_whitespace_bonus_counterexample :
    get_figure_number_from_context "xprosodyx\tvalence\t".data = 6 ∧
    resolverClaimWhitespace "xprosodyx\tvalence\t".data = 8 ∧
    resolverClaimWhitespace "xprosodyx\tvalence\t".data
      ≠ get_figure_number_from_context "xprosodyx\tvalence\t".data := by
  have e1 : get_figure_number_from_context "xprosodyx\tvalence\t".data = 6 := rfl
  have e2 : resolverClaimWhitespace "xprosodyx\tvalence\t".data = 8 := rfl
  refine ⟨e1, e2, ?_⟩
  rw [e1, e2]
  decide

/-- C3, amended: for every window, `get_figure_number_from_context` returns
the number of the first catalog entry (in declaration order) to reach the
maximal score, where each keyword occurring case-insensitively scores
`2 × length` plus a bonus of 5 when it appears with a single space on both
sides in the space-padded window, ties broken by strict greater-than, and 1
when no keyword occurs; the window `"...the valence dimension is shown in."`
resolves to figure 8. -/
theorem C3_resolver_amended :
    (∀ ctx : List Char, get_figure_number_from_context ctx = resolverSpecSpace ctx) ∧
    get_figure_number_from_context "...the valence dimension is shown in.".data = 8 :=
  ⟨resolver_eq_spec, rfl⟩

/-- C4: the claim promises no trigger phrase immediately followed by
punctuation without an intervening marker; the code only repairs the
punctuation characters `.` and `,`, so `"shown in;"` passes through the
whole pipeline untouched and the dangling reference remains. -/
theorem C4_dangling_semicolon :
    fixAllFigureReferencesStr "as shown in; the end" = "as shown in; the end" ∧
    containsStr "shown in;" "as shown in; the end" = true ∧
    containsStr "FIG" "as shown in; the end" = false :=
  ⟨rfl, rfl, rfl⟩

/-- C5, counterexample: when the second `CLAIMS` block is the last block of
the document it is flushed by the end-of-input flush, which stores a block
only into a role that holds no content yet — even for `claims` — so the
blocks are NOT concatenated as the claim states. -/
theorem C5_final_flush_counterexample :
    secGet (parse_sections "CLAIMS\nalpha\nABSTRACT\nbeta\nCLAIMS\ngamma".data) "claims"
      = some "alpha".data ∧
    some ("alpha".data) ≠ some (("alpha\n\ngamma" : String).data) :=
  ⟨rfl, by decide⟩

/-- C5, amended: at a heading-triggered flush, a nonempty block is stored
into a fresh role, appended (with a blank line) when the role is `claims`,
and discarded for any other occupied role; the final end-of-input flush
keeps the block only when its role holds no content, discarding it even for
`claims`.  Hence two non-adjacent CLAIMS blocks followed by a later heading
are concatenated, while two non-adjacent ABSTRACT blocks keep only the
first block's text. -/
theorem C5_flush_amended :
    (∀ (m : List (String × List Char)) (cur : String) (content : List (List Char)),
      secGet (flushMid m cur content) cur =
        if content = [] ∨ stripCh (joinNl content) = [] then secGet m cur
        else
          match secGet m cur with
          | none => some (stripCh (joinNl content))
          | some old =>
            if cur = "claims" then some (old ++ "\n\n".data ++ stripCh (joinNl content))
            else some old) ∧
    (∀ (m : List (String × List Char)) (cur : String) (content : List (List Char)),
      secGet (flushFinal m cur content) cur =
        if content = [] ∨ stripCh (joinNl content) = [] then secGet m cur
        else
          match secGet m cur with
          | none => some (stripCh (joinNl content))
          | some old => some old) ∧
    secGet (parse_sections "CLAIMS\nalpha\nABSTRACT\nbeta\nCLAIMS\ngamma\nSUMMARY\ndelta".data)
        "claims" = some ("alpha\n\ngamma" : String).data ∧
    secGet (parse_sections "ABSTRACT\na one\nCLAIMS\ncc\nABSTRACT\na two\nSUMMARY\ns".data)
        "abstract" = some ("a one" : String).data :=
  ⟨flushMid_lookup, flushFinal_lookup, rfl, rfl⟩

/-- C6, counterexample: the admission length test runs on the text AFTER the
trailing-section-header strip, not on the whitespace-collapsed text alone.
The block `"1. Abcd (3) INDUSTRIAL APPLICABILITY"` has a 33-character
collapsed body (`≥ 20`, number 1 unseen and `≤ 65`), so the claim's iff says
it is admitted — but the header strip leaves only `"Abcd"` (4 chars) and the
block is rejected. -/
theorem C6_header_strip_counterexample :
    (stripCh (collapseWsRuns "Abcd (3) INDUSTRIAL APPLICABILITY".data)).length = 33 ∧
    (20 ≤ 33 ∧ (1 : Nat) ≤ 65) ∧
    extract_claims "1. Abcd (3) INDUSTRIAL APPLICABILITY".data = [] :=
  ⟨rfl, ⟨by decide, by decide⟩, rfl⟩

/-- C6, amended: a candidate block is admitted iff its number is unseen, is
`≤ 65`, and its whitespace-collapsed, trailing-section-header-stripped text
has at least 20 characters; a block numbered 66 is rejected, a 19-character
body is rejected, and an exactly-20-character body is admitted. -/
theorem C6_admission_amended :
    (∀ (seen : List Nat) (claims : List ClaimRecord) (nds raw : List Char),
      (extractStep (seen, claims) (nds, raw)).2.length = claims.length + 1 ↔
        (digitsToNat nds ∉ seen ∧ digitsToNat nds ≤ 65 ∧
          20 ≤ (stripTrailHeader2 (stripTrailHeader1 (stripCh (collapseWsRuns raw)))).length)) ∧
    extract_claims "66. A method comprising plenty of characters here.".data = [] ∧
    extract_claims "1. Abcdefghijklmnopqrs".data = [] ∧
    extract_claims "1. Abcdefghijklmnopqrst".data
      = [⟨1, "Abcdefghijklmnopqrst", false⟩] :=
  ⟨extractStep_admits_iff, rfl, rfl, rfl⟩

/-- C7, counterexample: the claim-number pattern `\d{1,2}` admits `0`, so a
block numbered 0 yields a `ClaimRecord` whose number is not positive. -/
theorem C7_zero_claim_counterexample :
    extract_claims "0. A method comprising plenty of characters.".data
      = [⟨0, "A method comprising plenty of characters.", false⟩] ∧
    ¬ 0 < (⟨0, "A method comprising plenty of characters.", false⟩ : ClaimRecord).number :=
  ⟨rfl, by decide⟩

/-- General ordering/uniqueness facts about the extraction fold followed by
the stable sort (instantiated by the C7 theorem). -/
theorem extract_props_general (ms : List (List Char × List Char)) :
    ((sortByNum (ms.foldl extractStep ([], [])).2).map ClaimRecord.number).Pairwise (· ≤ ·) ∧
    ((sortByNum (ms.foldl extractStep ([], [])).2).map ClaimRecord.number).Pairwise (· ≠ ·) ∧
    (sortByNum (ms.foldl extractStep ([], [])).2).all
      (fun c => c.number ≤ 65) = true := by
  obtain ⟨hmem, hpw⟩ := extract_fold_inv ms [] []
    (by intro c h; cases h) (by simp)
  have hperm : (sortByNum (ms.foldl extractStep ([], [])).2).Perm
      (ms.foldl extractStep ([], [])).2 := sortByNum_perm _
  refine ⟨?_, ?_, ?_⟩
  · exact (List.pairwise_map).mpr (sortByNum_sorted _)
  · have hpermmap := hperm.map ClaimRecord.number
    exact (hpermmap.pairwise_iff (fun hab => Ne.symm hab)).mpr hpw
  · rw [List.all_eq_true]
    intro c hc
    have hc2 := hperm.mem_iff.mp hc
    simpa using (hmem c hc2).2

/-- C7, amended: for every input text, `extract_claims` returns a list
sorted ascending by claim number whose numbers are pairwise distinct and
all `≤ 65`; the numbers are not necessarily positive (0 is admissible). -/
theorem C7_sorted_unique_amended (t : List Char) :
    ((extract_claims t).map ClaimRecord.number).Pairwise (· ≤ ·) ∧
    ((extract_claims t).map ClaimRecord.number).Pairwise (· ≠ ·) ∧
    (extract_claims t).all (fun c => c.number ≤ 65) = true :=
  extract_props_general _

/-- C8, counterexample: `clean_text` collapses a run of four line breaks to
THREE line breaks (`re.sub(r'\n{4,}', '\n\n\n', ...)`), not to two as the
claim states. -/
theorem C8_three_breaks_counterexample :
    cleanTextStr "a\n\n\n\nb" = "a\n\n\nb" ∧
    ("a\n\n\nb" : String) ≠ "a\n\nb" :=
  ⟨rfl, by decide⟩

/-- C8, amended: `clean_text` collapses every run of 4 or more consecutive
line breaks to exactly three line breaks (shown on the family
`"a" ++ "\n"*(k+4) ++ "b"` for every `k`). -/
theorem C8_collapse_amended (k : Nat) :
    cleanTextStr (String.mk (famNl k)) = "a\n\n\nb" := by
  have hall := famNl_all k
  have h1 : applySub mArtEndOfPart (famNl k) = famNl k :=
    applySub_id mArtEndOfPart_none hall
  have h2 : applySub mArtPartDash (famNl k) = famNl k :=
    applySub_id mArtPartDash_none hall
  have h3 : applySub mArtInsertParen (famNl k) = famNl k :=
    applySub_id mArtInsertParen_none hall
  have h4 : applySub mArtInsertBracket (famNl k) = famNl k :=
    applySub_id mArtInsertBracket_none hall
  have h5 : applySub mArtAngles (famNl k) = famNl k :=
    applySub_id mArtAngles_none hall
  have h6 : applySub mArtFigureBracket (famNl k) = famNl k :=
    applySub_id mArtFigureBracket_none hall
  have h7 : applySub mArtImagePlaceholder (famNl k) = famNl k :=
    applySub_id mArtImagePlaceholder_none hall
  have h8 : applySub mArtPatentFigures (famNl k) = famNl k :=
    applySub_id mArtPatentFigures_none hall
  have hst : collapseSpaceTab (famNl k) = famNl k :=
    collapseSpaceTabGo_id_chars3 _ hall
  have hclean : clean_text (famNl k) = 'a' :: '\n' :: '\n' :: '\n' :: ['b'] := by
    show stripCh (applySub mDupSection (collapseNewlines (collapseSpaceTab
      (applySub mArtPatentFigures (applySub mArtImagePlaceholder
      (applySub mArtFigureBracket (applySub mArtAngles (applySub mArtInsertBracket
      (applySub mArtInsertParen (applySub mArtPartDash
      (applySub mArtEndOfPart (famNl k)))))))))))) = _
    rw [h1, h2, h3, h4, h5, h6, h7, h8, hst, cnl_fam k]
    rfl
  show String.mk (clean_text (String.mk (famNl k)).data) = "a\n\n\nb"
  rw [show (String.mk (famNl k)).data = famNl k from rfl, hclean]

/-- C9: the claim requires the normalizer to be idempotent; the code
violates it.  On `"(5)(5)(5)"` the duplicate-section-number pass rewrites
`(5)(5)` and resumes after the replacement, leaving `"(5)(5)"` — still a
duplicate, contradicting the code's own `Fix duplicate section numbers`
comment — and a second application rewrites again to `"(5)"`. -/
theorem C9_clean_text_not_idempotent :
    cleanTextStr "(5)(5)(5)" = "(5)(5)" ∧
    cleanTextStr (cleanTextStr "(5)(5)(5)") = "(5)" ∧
    cleanTextStr (cleanTextStr "(5)(5)(5)") ≠ cleanTextStr "(5)(5)(5)" := by
  have e1 : cleanTextStr "(5)(5)(5)" = "(5)(5)" := rfl
  have e2 : cleanTextStr "(5)(5)" = "(5)" := rfl
  refine ⟨e1, by rw [e1, e2], by rw [e1, e2]; decide⟩

/-- C10: the final cleanup pass of `fix_all_figure_references` is
`\s{2,}` → `' '`, so the output never contains two consecutive whitespace
characters; in particular a blank-line paragraph break in the input is
collapsed to a single space. -/
theorem C10_no_double_whitespace :
    (∀ t : List Char, chkNoDoubleWS (fix_all_figure_references t) = true) ∧
    fixAllFigureReferencesStr "a\n\nb" = "a b" := by
  constructor
  · intro t
    exact chk_collapseSpaces _
  · rfl

end Alokickflow
